import Mathlib

/-!
Verification development for the QuickBite food-ordering storage layer.

The repository exposes one storage contract (`IStorage`) with three
implementations: the in-memory `MemStorage` (JS `Map`s with autoincrement
ids), the relational `DatabaseStorage` (SQL tables with serial ids), and the
document-store `MongoStorage` (collections keyed by 24-hex-digit ObjectIds,
with an ad-hoc translation between ObjectIds and numeric application ids).

This file shallowly embeds those three backends:

* JS `Map`s become association lists whose key is the record's `id` field
  (the code always stores a record under its own id);
* SQL tables become lists of rows plus a serial counter per table;
* Mongo collections become lists of documents; the ObjectIds MongoDB would
  assign are modelled as an explicit supply of fresh identifier strings,
  consumed by each insert;
* JS numbers used as ids, quantities and prices become `Nat`, `Int` and
  `Rat` respectively (the storage layer only copies prices around, it never
  computes with them);
* `async` methods become pure functions `state → result × state`;
* a thrown error / a `catch` path that yields a generic result becomes an
  `Option`/`Bool` result.
-/

namespace FoodOrdering

/-! ## Hexadecimal identifier translation

`MongoStorage` converts a 24-hex-digit ObjectId to a numeric application id
by parsing the last 6 hex digits (`objectIdToNumericId`), and converts a
numeric id back to a store identifier with
`id.toString(16).padStart(24, '0')` (used by `getUser`, `getMenuItemById`,
`getOrderById`, ...). We embed both directions. -/

/-- The sixteen lower-case hexadecimal digits, `"0123456789abcdef"`. -/
def lowerHexDigits : List Char :=
  (List.range 16).map Nat.digitChar

/-- `c` is a lower-case hexadecimal digit (the alphabet ObjectId strings use). -/
def isLowerHexDigit (c : Char) : Bool :=
  lowerHexDigits.contains c

/-- The numeric value of a hexadecimal digit, as JS `parseInt(·, 16)` reads
one (both cases accepted); `none` for a character that is not a hex digit. -/
def hexVal? (c : Char) : Option Nat :=
  if '0' ≤ c ∧ c ≤ '9' then some (c.toNat - 48)
  else if 'a' ≤ c ∧ c ≤ 'f' then some (c.toNat - 87)
  else if 'A' ≤ c ∧ c ≤ 'F' then some (c.toNat - 55)
  else none

/-- The value of a hex digit, defaulting to `0` off the hex alphabet. -/
def hexVal (c : Char) : Nat :=
  (hexVal? c).getD 0

/-- Value of a string of hex digits, most significant first. -/
def parseHexList (l : List Char) : Nat :=
  l.foldl (fun a c => 16 * a + hexVal c) 0

/-- Embedding of JS `parseInt(s, 16)`: the value of the maximal leading run
of hex digits.  (JS yields `NaN` when that run is empty; every call site in
the code passes a slice of an all-hex ObjectId string, so that path is not
modelled.) -/
def jsParseIntHex (s : String) : Nat :=
  parseHexList (s.data.takeWhile (fun c => (hexVal? c).isSome))

/-- Embedding of `objectIdToNumericId` (mongo-storage): take the last 6
characters of the ObjectId string (`idStr.substring(idStr.length - 6)`) and
parse them as hex. -/
def objectIdToNumericId (s : String) : Nat :=
  jsParseIntHex (String.mk (s.data.drop (s.data.length - 6)))

/-- Hex digits of `n`, most significant first, by repeated division — the
algorithm behind JS `n.toString(16)` — with a fuel argument so the kernel
can evaluate it. -/
def toHexDigitsAux : Nat → Nat → List Char → List Char
  | 0, _, acc => acc
  | fuel + 1, n, acc =>
    if n < 16 then Nat.digitChar n :: acc
    else toHexDigitsAux fuel (n / 16) (Nat.digitChar (n % 16) :: acc)

/-- Embedding of JS `n.toString(16)` for a natural number: lower-case hex
digits, `"0"` for zero. -/
def jsToHexString (n : Nat) : String :=
  String.mk (toHexDigitsAux (n + 1) n [])

/-- Embedding of JS `s.padStart(24, '0')`. -/
def jsPadStart24 (s : String) : String :=
  String.mk (List.replicate (24 - s.data.length) '0' ++ s.data)

/-- The numeric-id-to-store-identifier direction used throughout
`MongoStorage`: `id.toString(16).padStart(24, '0')`. -/
def numericIdToHex24 (n : Nat) : String :=
  jsPadStart24 (jsToHexString n)

/-- Structural-recursion companion of `toHexDigitsAux`, for proofs. -/
def toHexRec (n : Nat) : List Char :=
  if _h : n < 16 then [Nat.digitChar n]
  else toHexRec (n / 16) ++ [Nat.digitChar (n % 16)]
decreasing_by exact Nat.div_lt_self (by omega) (by omega)

/-! ## Data model (shared/schema.ts)

Application row types as the shared schema defines them.  JS numbers are
embedded as `Nat` (ids), `Int` (quantities) and `Rat` (prices, ratings,
totals — the storage layer never computes with these, it only copies
them). -/

/-- `InsertUser` (insertUserSchema pick). -/
structure InsertUser where
  username : String
  password : String
  name : Option String
  email : Option String
  isAdmin : Bool
deriving DecidableEq

/-- `User` row: serial id plus the insert fields. -/
structure User where
  id : Nat
  username : String
  password : String
  name : Option String
  email : Option String
  isAdmin : Bool
deriving DecidableEq

/-- `InsertMenuItem` (insertMenuItemSchema pick — no `rating`). -/
structure InsertMenuItem where
  name : String
  description : String
  price : Rat
  imageUrl : Option String
  category : String
  isPopular : Bool
deriving DecidableEq

/-- `MenuItem` row. -/
structure MenuItem where
  id : Nat
  name : String
  description : String
  price : Rat
  imageUrl : Option String
  category : String
  rating : Rat
  isPopular : Bool
deriving DecidableEq

/-- `InsertCartItem`. -/
structure InsertCartItem where
  userId : Nat
  menuItemId : Nat
  quantity : Int
deriving DecidableEq

/-- `CartItem` row. -/
structure CartItem where
  id : Nat
  userId : Nat
  menuItemId : Nat
  quantity : Int
deriving DecidableEq

/-- Two cart rows do not address the same `(user, menu item)` pair. -/
def distinctPair (a b : CartItem) : Prop :=
  a.userId ≠ b.userId ∨ a.menuItemId ≠ b.menuItemId

instance (a b : CartItem) : Decidable (distinctPair a b) :=
  inferInstanceAs (Decidable (a.userId ≠ b.userId ∨ a.menuItemId ≠ b.menuItemId))

/-- `OrderStatus`. -/
inductive OrderStatus where
  | pending
  | processing
  | delivering
  | delivered
  | cancelled
deriving DecidableEq

/-- One element of an order's `items` JSON blob, as both `createOrder`
implementations and `getOrdersByUserId` read it. -/
structure OrderItem where
  menuItemId : Nat
  quantity : Int
deriving DecidableEq

/-- `InsertOrder` (insertOrderSchema pick — no `status`, no `createdAt`). -/
structure InsertOrder where
  userId : Nat
  items : List OrderItem
  total : Rat
  address : Option String
  paymentId : Option String
deriving DecidableEq

/-- `Order` row. -/
structure Order where
  id : Nat
  userId : Nat
  items : List OrderItem
  status : OrderStatus
  total : Rat
  createdAt : Nat
  address : Option String
  paymentId : Option String
deriving DecidableEq

/-- One `{ menuItem, quantity }` entry of `OrderWithItems.items`.  The
in-memory backend writes `menuItem: menuItem!` — the non-null assertion can
in fact hide an absent item (deleted since purchase), so the field is an
`Option` here. -/
structure OrderItemDetail where
  menuItem : Option MenuItem
  quantity : Int
deriving DecidableEq

/-- `OrderWithItems`: the order's fields with `items` replaced by the
detailed list (`{ ...order, items: itemsWithDetails }`). -/
structure OrderWithItems where
  id : Nat
  userId : Nat
  status : OrderStatus
  total : Rat
  createdAt : Nat
  address : Option String
  paymentId : Option String
  items : List OrderItemDetail
deriving DecidableEq

/-- `{ ...existingMenuItem, ...insertMenuItem }` / drizzle
`set(insertMenuItem)`: replace the insert fields, keep `id` and `rating`. -/
def applyInsertMenuItem (e : MenuItem) (im : InsertMenuItem) : MenuItem :=
  { e with
    name := im.name
    description := im.description
    price := im.price
    imageUrl := im.imageUrl
    category := im.category
    isPopular := im.isPopular }

/-! ## JS `Map` embedding

A `Map<number, T>` whose values carry their own key (the code always stores
a record under its `id`) becomes a list of records.  `set` replaces in
place when the key is present and appends otherwise (JS `Map` preserves
insertion order and keeps the original position on overwrite); `delete`
removes the keyed record. -/

/-- JS `map.set(k, v)` on a map represented by its value list. -/
def mapSet {α : Type} (l : List α) (key : α → Nat) (k : Nat) (v : α) : List α :=
  if l.any (fun x => key x == k) then l.map (fun x => if key x == k then v else x)
  else l ++ [v]

/-- JS `map.delete(k)` (the `Bool` result is taken from `any` separately). -/
def mapDelete {α : Type} (l : List α) (key : α → Nat) (k : Nat) : List α :=
  l.filter (fun x => !(key x == k))

/-! ## In-memory backend (`MemStorage`) -/

/-- The four maps and four autoincrement counters of `MemStorage`. -/
structure MemState where
  users : List User
  menuItems : List MenuItem
  cartItems : List CartItem
  orders : List Order
  userIdCounter : Nat
  menuItemIdCounter : Nat
  cartItemIdCounter : Nat
  orderIdCounter : Nat
deriving DecidableEq

/-- Embedding of JS `s.toLowerCase()` (character-wise lowering). -/
def jsToLower (s : String) : String :=
  String.mk (s.data.map Char.toLower)

/-- `MemStorage.getUser`: `this.users.get(id)`. -/
def mem_getUser (st : MemState) (id : Nat) : Option User :=
  st.users.find? (fun u => u.id == id)

/-- `MemStorage.getUserByUsername`: first user whose lower-cased username
matches the lower-cased argument. -/
def mem_getUserByUsername (st : MemState) (username : String) : Option User :=
  st.users.find? (fun u => jsToLower u.username == jsToLower username)

/-- `MemStorage.createUser`. -/
def mem_createUser (st : MemState) (iu : InsertUser) : User × MemState :=
  let id := st.userIdCounter
  let u : User :=
    { id := id, username := iu.username, password := iu.password,
      name := iu.name, email := iu.email, isAdmin := iu.isAdmin }
  (u, { st with users := mapSet st.users (fun x => x.id) id u,
                userIdCounter := id + 1 })

/-- `MemStorage.getAllMenuItems`. -/
def mem_getAllMenuItems (st : MemState) : List MenuItem :=
  st.menuItems

/-- `MemStorage.getMenuItemById`. -/
def mem_getMenuItemById (st : MemState) (id : Nat) : Option MenuItem :=
  st.menuItems.find? (fun m => m.id == id)

/-- `MemStorage.getMenuItemsByCategory`: case-insensitive match. -/
def mem_getMenuItemsByCategory (st : MemState) (category : String) : List MenuItem :=
  st.menuItems.filter (fun m => jsToLower m.category == jsToLower category)

/-- `MemStorage.createMenuItem`: fresh id, `rating: 0`. -/
def mem_createMenuItem (st : MemState) (im : InsertMenuItem) : MenuItem × MemState :=
  let id := st.menuItemIdCounter
  let m : MenuItem :=
    { id := id, name := im.name, description := im.description,
      price := im.price, imageUrl := im.imageUrl, category := im.category,
      rating := 0, isPopular := im.isPopular }
  (m, { st with menuItems := mapSet st.menuItems (fun x => x.id) id m,
                menuItemIdCounter := id + 1 })

/-- `MemStorage.updateMenuItem`. -/
def mem_updateMenuItem (st : MemState) (id : Nat) (im : InsertMenuItem) :
    Option MenuItem × MemState :=
  match st.menuItems.find? (fun m => m.id == id) with
  | none => (none, st)
  | some e =>
    let upd := applyInsertMenuItem e im
    (some upd, { st with menuItems := mapSet st.menuItems (fun x => x.id) id upd })

/-- `MemStorage.deleteMenuItem`: `this.menuItems.delete(id)`. -/
def mem_deleteMenuItem (st : MemState) (id : Nat) : Bool × MemState :=
  (st.menuItems.any (fun m => m.id == id),
   { st with menuItems := mapDelete st.menuItems (fun x => x.id) id })

/-- `MemStorage.getCartItems`. -/
def mem_getCartItems (st : MemState) (userId : Nat) : List CartItem :=
  st.cartItems.filter (fun c => c.userId == userId)

/-- `MemStorage.updateCartItemQuantity`: refuse when the row is absent or
belongs to another user. -/
def mem_updateCartItemQuantity (st : MemState) (id userId : Nat) (quantity : Int) :
    Option CartItem × MemState :=
  match st.cartItems.find? (fun c => c.id == id) with
  | none => (none, st)
  | some c =>
    if c.userId == userId then
      let upd : CartItem := { c with quantity := quantity }
      (some upd, { st with cartItems := mapSet st.cartItems (fun x => x.id) id upd })
    else (none, st)

/-- `MemStorage.addToCart`: merge into an existing `(user, menu item)` row
by summing quantities, else insert a fresh row. -/
def mem_addToCart (st : MemState) (ic : InsertCartItem) :
    Option CartItem × MemState :=
  match st.cartItems.find?
      (fun c => c.userId == ic.userId && c.menuItemId == ic.menuItemId) with
  | some existing =>
    mem_updateCartItemQuantity st existing.id ic.userId
      (existing.quantity + ic.quantity)
  | none =>
    let id := st.cartItemIdCounter
    let c : CartItem :=
      { id := id, userId := ic.userId, menuItemId := ic.menuItemId,
        quantity := ic.quantity }
    (some c, { st with cartItems := mapSet st.cartItems (fun x => x.id) id c,
                       cartItemIdCounter := id + 1 })

/-- `MemStorage.removeFromCart`: `false` when absent or owned by another
user, else delete by id. -/
def mem_removeFromCart (st : MemState) (id userId : Nat) : Bool × MemState :=
  match st.cartItems.find? (fun c => c.id == id) with
  | none => (false, st)
  | some c =>
    if c.userId == userId then
      (true, { st with cartItems := mapDelete st.cartItems (fun x => x.id) id })
    else (false, st)

/-- `MemStorage.clearCart`: delete each of the user's cart rows by its id;
always `true`. -/
def mem_clearCart (st : MemState) (userId : Nat) : Bool × MemState :=
  let userItems := st.cartItems.filter (fun c => c.userId == userId)
  (true, { st with cartItems :=
      (userItems.foldl (fun l item => mapDelete l (fun x => x.id) item.id)
        st.cartItems) })

/-- `MemStorage.createOrder`: fresh id, `createdAt` stamped with the current
time, `status: 'pending'` overriding anything in the insert value. -/
def mem_createOrder (st : MemState) (io : InsertOrder) (now : Nat) :
    Order × MemState :=
  let id := st.orderIdCounter
  let o : Order :=
    { id := id, userId := io.userId, items := io.items,
      status := OrderStatus.pending, total := io.total, createdAt := now,
      address := io.address, paymentId := io.paymentId }
  (o, { st with orders := mapSet st.orders (fun x => x.id) id o,
                orderIdCounter := id + 1 })

/-- `MemStorage.getOrderById`. -/
def mem_getOrderById (st : MemState) (id : Nat) : Option Order :=
  st.orders.find? (fun o => o.id == id)

/-- `MemStorage.getOrdersByUserId`: each stored item is re-joined with the
*current* menu item (`menuItem: await this.getMenuItemById(...)`). -/
def mem_getOrdersByUserId (st : MemState) (userId : Nat) : List OrderWithItems :=
  (st.orders.filter (fun o => o.userId == userId)).map (fun o =>
    { id := o.id, userId := o.userId, status := o.status, total := o.total,
      createdAt := o.createdAt, address := o.address, paymentId := o.paymentId,
      items := o.items.map (fun it =>
        { menuItem := mem_getMenuItemById st it.menuItemId,
          quantity := it.quantity }) })

/-- `MemStorage.getAllOrders`. -/
def mem_getAllOrders (st : MemState) : List Order :=
  st.orders

/-- `MemStorage.updateOrderStatus`. -/
def mem_updateOrderStatus (st : MemState) (id : Nat) (status : OrderStatus) :
    Option Order × MemState :=
  match st.orders.find? (fun o => o.id == id) with
  | none => (none, st)
  | some o =>
    let upd : Order := { o with status := status }
    (some upd, { st with orders := mapSet st.orders (fun x => x.id) id upd })

/-- The state a `new MemStorage()` starts from, before seeding. -/
def emptyMemState : MemState :=
  { users := [], menuItems := [], cartItems := [], orders := [],
    userIdCounter := 1, menuItemIdCounter := 1, cartItemIdCounter := 1,
    orderIdCounter := 1 }

/-- The default admin user the constructor seeds. -/
def adminInsert : InsertUser :=
  { username := "admin", password := "admin_password",
    name := some "Admin User", email := some "admin@quickbite.com",
    isAdmin := true }

/-- The eight demo menu items `seedMenuItems` creates. -/
def seedMenuItemsData : List InsertMenuItem :=
  [{ name := "Pepperoni Pizza",
     description := "Classic pepperoni pizza with mozzarella and our special sauce",
     price := 12.99,
     imageUrl := some "https://images.unsplash.com/photo-1513104890138-7c749659a591?ixlib=rb-1.2.1&auto=format&fit=crop&w=500&q=80",
     category := "Pizza", isPopular := true },
   { name := "Deluxe Burger",
     description := "Juicy beef patty with cheese, lettuce, tomato and special sauce",
     price := 10.99,
     imageUrl := some "https://images.unsplash.com/photo-1568901346375-23c9450c58cd?ixlib=rb-1.2.1&auto=format&fit=crop&w=500&q=80",
     category := "Burgers", isPopular := true },
   { name := "Salmon Sushi Roll",
     description := "Fresh salmon, avocado, cucumber wrapped in seaweed and rice",
     price := 14.99,
     imageUrl := some "https://images.unsplash.com/photo-1579871494447-9811cf80d66c?ixlib=rb-1.2.1&auto=format&fit=crop&w=500&q=80",
     category := "Sushi", isPopular := true },
   { name := "Pasta Carbonara",
     description := "Creamy pasta with bacon, egg, parmesan cheese and black pepper",
     price := 13.99,
     imageUrl := some "https://images.unsplash.com/photo-1473093295043-cdd812d0e601?ixlib=rb-1.2.1&auto=format&fit=crop&w=500&q=80",
     category := "Pasta", isPopular := true },
   { name := "Margherita Pizza",
     description := "Classic pizza with tomato sauce, mozzarella cheese, and fresh basil",
     price := 11.99,
     imageUrl := some "https://images.unsplash.com/photo-1565299624946-b28f40a0ae38?ixlib=rb-1.2.1&auto=format&fit=crop&w=500&q=80",
     category := "Pizza", isPopular := false },
   { name := "Chicken Salad",
     description := "Fresh vegetables with grilled chicken, avocado and vinaigrette",
     price := 9.99,
     imageUrl := some "https://images.unsplash.com/photo-1532465614-6cc8d45f647f?ixlib=rb-1.2.1&auto=format&fit=crop&w=500&q=80",
     category := "Salads", isPopular := false },
   { name := "Spicy Wings",
     description := "Crispy chicken wings tossed in our special hot sauce",
     price := 8.99,
     imageUrl := some "https://images.unsplash.com/photo-1563729784474-d77dbb933a9e?ixlib=rb-1.2.1&auto=format&fit=crop&w=500&q=80",
     category := "Chicken", isPopular := false },
   { name := "Chocolate Cake",
     description := "Rich chocolate cake with ganache frosting and berries",
     price := 6.99,
     imageUrl := some "https://images.unsplash.com/photo-1529042410759-befb1204b468?ixlib=rb-1.2.1&auto=format&fit=crop&w=500&q=80",
     category := "Desserts", isPopular := false }]

/-- The state the `MemStorage` constructor builds: the admin user then the
eight seed menu items. -/
def initMemState : MemState :=
  seedMenuItemsData.foldl (fun st im => (mem_createMenuItem st im).2)
    (mem_createUser emptyMemState adminInsert).2

/-- The state-changing `IStorage` operations on `MemStorage` (the read
methods are pure functions of the state and appear above as such). -/
inductive MemOp where
  | createUser (iu : InsertUser)
  | createMenuItem (im : InsertMenuItem)
  | updateMenuItem (id : Nat) (im : InsertMenuItem)
  | deleteMenuItem (id : Nat)
  | addToCart (ic : InsertCartItem)
  | removeFromCart (id userId : Nat)
  | updateCartItemQuantity (id userId : Nat) (quantity : Int)
  | clearCart (userId : Nat)
  | createOrder (io : InsertOrder) (now : Nat)
  | updateOrderStatus (id : Nat) (status : OrderStatus)
deriving DecidableEq

/-- Whether an operation is `updateOrderStatus`. -/
def MemOp.isUpdateOrderStatus : MemOp → Bool
  | MemOp.updateOrderStatus _ _ => true
  | _ => false

/-- The state after one operation. -/
def memApply (op : MemOp) (st : MemState) : MemState :=
  match op with
  | MemOp.createUser iu => (mem_createUser st iu).2
  | MemOp.createMenuItem im => (mem_createMenuItem st im).2
  | MemOp.updateMenuItem id im => (mem_updateMenuItem st id im).2
  | MemOp.deleteMenuItem id => (mem_deleteMenuItem st id).2
  | MemOp.addToCart ic => (mem_addToCart st ic).2
  | MemOp.removeFromCart id userId => (mem_removeFromCart st id userId).2
  | MemOp.updateCartItemQuantity id userId q =>
      (mem_updateCartItemQuantity st id userId q).2
  | MemOp.clearCart userId => (mem_clearCart st userId).2
  | MemOp.createOrder io now => (mem_createOrder st io now).2
  | MemOp.updateOrderStatus id s => (mem_updateOrderStatus st id s).2

/-- States reachable from the constructed `MemStorage` by `IStorage`
operations. -/
inductive MemReachable : MemState → Prop where
  | init : MemReachable initMemState
  | step (st : MemState) (op : MemOp) :
      MemReachable st → MemReachable (memApply op st)

/-- The structural facts JS guarantees for the four `Map`s: keys are unique,
below the autoincrement counter, and no two cart rows share a
`(user, menu item)` pair. -/
structure MemInv (st : MemState) : Prop where
  users_nodup : (st.users.map User.id).Nodup
  users_lt : ∀ u ∈ st.users, u.id < st.userIdCounter
  menu_nodup : (st.menuItems.map MenuItem.id).Nodup
  menu_lt : ∀ m ∈ st.menuItems, m.id < st.menuItemIdCounter
  cart_nodup : (st.cartItems.map CartItem.id).Nodup
  cart_lt : ∀ c ∈ st.cartItems, c.id < st.cartItemIdCounter
  orders_nodup : (st.orders.map Order.id).Nodup
  orders_lt : ∀ o ∈ st.orders, o.id < st.orderIdCounter
  cart_pair : st.cartItems.Pairwise distinctPair

/-! ## Relational backend (`DatabaseStorage`)

SQL tables as row lists plus a serial sequence per table.  Inserts append a
row under the next serial id; `select ... where eq` filters; `update ...
where ... returning` rewrites the matching rows and returns the first;
`delete` removes the matching rows and resolves to a command-result object,
so the code's `!!result` is `true` whether or not any row matched. -/

/-- The four tables and serial sequences of the relational backend; its
"empty state" is empty tables. -/
structure DbState where
  users : List User
  menuItems : List MenuItem
  cartItems : List CartItem
  orders : List Order
  userSeq : Nat
  menuSeq : Nat
  cartSeq : Nat
  orderSeq : Nat
deriving DecidableEq

/-- The empty database. -/
def dbEmpty : DbState :=
  { users := [], menuItems := [], cartItems := [], orders := [],
    userSeq := 1, menuSeq := 1, cartSeq := 1, orderSeq := 1 }

/-- `DatabaseStorage.getUser`. -/
def db_getUser (st : DbState) (id : Nat) : Option User :=
  st.users.find? (fun u => u.id == id)

/-- `DatabaseStorage.getUserByUsername`: SQL `eq` — an exact,
case-sensitive match. -/
def db_getUserByUsername (st : DbState) (username : String) : Option User :=
  st.users.find? (fun u => u.username == username)

/-- `DatabaseStorage.createUser`. -/
def db_createUser (st : DbState) (iu : InsertUser) : User × DbState :=
  let id := st.userSeq
  let u : User :=
    { id := id, username := iu.username, password := iu.password,
      name := iu.name, email := iu.email, isAdmin := iu.isAdmin }
  (u, { st with users := st.users ++ [u], userSeq := id + 1 })

/-- `DatabaseStorage.getAllMenuItems`. -/
def db_getAllMenuItems (st : DbState) : List MenuItem :=
  st.menuItems

/-- `DatabaseStorage.getMenuItemById`. -/
def db_getMenuItemById (st : DbState) (id : Nat) : Option MenuItem :=
  st.menuItems.find? (fun m => m.id == id)

/-- `DatabaseStorage.getMenuItemsByCategory`: exact `eq` on the category. -/
def db_getMenuItemsByCategory (st : DbState) (category : String) : List MenuItem :=
  st.menuItems.filter (fun m => m.category == category)

/-- `DatabaseStorage.createMenuItem` (`rating` takes the column default 0). -/
def db_createMenuItem (st : DbState) (im : InsertMenuItem) : MenuItem × DbState :=
  let id := st.menuSeq
  let m : MenuItem :=
    { id := id, name := im.name, description := im.description,
      price := im.price, imageUrl := im.imageUrl, category := im.category,
      rating := 0, isPopular := im.isPopular }
  (m, { st with menuItems := st.menuItems ++ [m], menuSeq := id + 1 })

/-- `DatabaseStorage.updateMenuItem`: `update ... set ... where id
... returning`. -/
def db_updateMenuItem (st : DbState) (id : Nat) (im : InsertMenuItem) :
    Option MenuItem × DbState :=
  ((st.menuItems.find? (fun m => m.id == id)).map (fun e => applyInsertMenuItem e im),
   { st with menuItems := st.menuItems.map (fun m =>
       if m.id == id then applyInsertMenuItem m im else m) })

/-- `DatabaseStorage.deleteMenuItem`: `!!result` of a delete is always
`true`. -/
def db_deleteMenuItem (st : DbState) (id : Nat) : Bool × DbState :=
  (true, { st with menuItems := st.menuItems.filter (fun m => !(m.id == id)) })

/-- `DatabaseStorage.getCartItems`. -/
def db_getCartItems (st : DbState) (userId : Nat) : List CartItem :=
  st.cartItems.filter (fun c => c.userId == userId)

/-- `DatabaseStorage.updateCartItemQuantity`: update where `id` and
`userId` both match. -/
def db_updateCartItemQuantity (st : DbState) (id userId : Nat) (quantity : Int) :
    Option CartItem × DbState :=
  ((st.cartItems.find? (fun c => c.id == id && c.userId == userId)).map
      (fun c => { c with quantity := quantity }),
   { st with cartItems := st.cartItems.map (fun c =>
       if c.id == id && c.userId == userId then { c with quantity := quantity }
       else c) })

/-- `DatabaseStorage.addToCart`: same merge-or-insert logic as the
in-memory backend. -/
def db_addToCart (st : DbState) (ic : InsertCartItem) :
    Option CartItem × DbState :=
  match st.cartItems.find?
      (fun c => c.userId == ic.userId && c.menuItemId == ic.menuItemId) with
  | some existing =>
    db_updateCartItemQuantity st existing.id ic.userId
      (existing.quantity + ic.quantity)
  | none =>
    let id := st.cartSeq
    let c : CartItem :=
      { id := id, userId := ic.userId, menuItemId := ic.menuItemId,
        quantity := ic.quantity }
    (some c, { st with cartItems := st.cartItems ++ [c], cartSeq := id + 1 })

/-- `DatabaseStorage.removeFromCart`: delete where `id` and `userId` match;
`!!result` is always `true`. -/
def db_removeFromCart (st : DbState) (id userId : Nat) : Bool × DbState :=
  (true, { st with cartItems :=
      st.cartItems.filter (fun c => !(c.id == id && c.userId == userId)) })

/-- `DatabaseStorage.clearCart`: delete where `userId`; always `true`. -/
def db_clearCart (st : DbState) (userId : Nat) : Bool × DbState :=
  (true, { st with cartItems := st.cartItems.filter (fun c => !(c.userId == userId)) })

/-- `DatabaseStorage.createOrder`: the `status` column defaults to
`'pending'` and `createdAt` to the current time. -/
def db_createOrder (st : DbState) (io : InsertOrder) (now : Nat) : Order × DbState :=
  let id := st.orderSeq
  let o : Order :=
    { id := id, userId := io.userId, items := io.items,
      status := OrderStatus.pending, total := io.total, createdAt := now,
      address := io.address, paymentId := io.paymentId }
  (o, { st with orders := st.orders ++ [o], orderSeq := id + 1 })

/-- `DatabaseStorage.getOrderById`. -/
def db_getOrderById (st : DbState) (id : Nat) : Option Order :=
  st.orders.find? (fun o => o.id == id)

/-- `DatabaseStorage.getOrdersByUserId`: re-joins each stored item with the
current menu item and silently skips items whose menu row is gone. -/
def db_getOrdersByUserId (st : DbState) (userId : Nat) : List OrderWithItems :=
  (st.orders.filter (fun o => o.userId == userId)).map (fun o =>
    { id := o.id, userId := o.userId, status := o.status, total := o.total,
      createdAt := o.createdAt, address := o.address, paymentId := o.paymentId,
      items := o.items.filterMap (fun it =>
        (db_getMenuItemById st it.menuItemId).map (fun m =>
          ({ menuItem := some m, quantity := it.quantity } : OrderItemDetail))) })

/-- `DatabaseStorage.updateOrderStatus`. -/
def db_updateOrderStatus (st : DbState) (id : Nat) (status : OrderStatus) :
    Option Order × DbState :=
  ((st.orders.find? (fun o => o.id == id)).map (fun o => { o with status := status }),
   { st with orders := st.orders.map (fun o =>
       if o.id == id then { o with status := status } else o) })

/-- The state-changing operations on the relational backend. -/
inductive DbOp where
  | createUser (iu : InsertUser)
  | createMenuItem (im : InsertMenuItem)
  | updateMenuItem (id : Nat) (im : InsertMenuItem)
  | deleteMenuItem (id : Nat)
  | addToCart (ic : InsertCartItem)
  | removeFromCart (id userId : Nat)
  | updateCartItemQuantity (id userId : Nat) (quantity : Int)
  | clearCart (userId : Nat)
  | createOrder (io : InsertOrder) (now : Nat)
  | updateOrderStatus (id : Nat) (status : OrderStatus)
deriving DecidableEq

/-- The state after one relational operation. -/
def dbApply (op : DbOp) (st : DbState) : DbState :=
  match op with
  | DbOp.createUser iu => (db_createUser st iu).2
  | DbOp.createMenuItem im => (db_createMenuItem st im).2
  | DbOp.updateMenuItem id im => (db_updateMenuItem st id im).2
  | DbOp.deleteMenuItem id => (db_deleteMenuItem st id).2
  | DbOp.addToCart ic => (db_addToCart st ic).2
  | DbOp.removeFromCart id userId => (db_removeFromCart st id userId).2
  | DbOp.updateCartItemQuantity id userId q =>
      (db_updateCartItemQuantity st id userId q).2
  | DbOp.clearCart userId => (db_clearCart st userId).2
  | DbOp.createOrder io now => (db_createOrder st io now).2
  | DbOp.updateOrderStatus id s => (db_updateOrderStatus st id s).2

/-- Database states reachable from the empty database. -/
inductive DbReachable : DbState → Prop where
  | init : DbReachable dbEmpty
  | step (st : DbState) (op : DbOp) :
      DbReachable st → DbReachable (dbApply op st)

/-- Structural facts for the relational state: primary keys are unique and
below the sequence, and the cart holds one row per `(user, item)` pair. -/
structure DbInv (st : DbState) : Prop where
  users_nodup : (st.users.map User.id).Nodup
  users_lt : ∀ u ∈ st.users, u.id < st.userSeq
  menu_nodup : (st.menuItems.map MenuItem.id).Nodup
  menu_lt : ∀ m ∈ st.menuItems, m.id < st.menuSeq
  cart_nodup : (st.cartItems.map CartItem.id).Nodup
  cart_lt : ∀ c ∈ st.cartItems, c.id < st.cartSeq
  orders_nodup : (st.orders.map Order.id).Nodup
  orders_lt : ∀ o ∈ st.orders, o.id < st.orderSeq
  cart_pair : st.cartItems.Pairwise distinctPair

/-! ## Document-store backend (`MongoStorage`)

Collections of documents keyed by ObjectId strings.  MongoDB itself chooses
each new document's ObjectId; that environment choice is modelled as an
explicit supply of identifier strings consumed by inserts.  The Mongoose
schema module (`mongo-db.ts`) is not among the repository's source files;
the document field defaults used below (`rating: 0`, order
`status: 'pending'` set explicitly by `createOrder` itself) follow the
shared schema and the storage code. -/

/-- A user document. -/
structure MUser where
  oid : String
  username : String
  password : String
  name : Option String
  email : Option String
  isAdmin : Bool
deriving DecidableEq

/-- A menu-item document. -/
structure MMenuItem where
  oid : String
  name : String
  description : String
  price : Rat
  imageUrl : Option String
  category : String
  rating : Rat
  isPopular : Bool
deriving DecidableEq

/-- A cart-item document (user and menu item held as ObjectId strings). -/
structure MCartItem where
  oid : String
  userId : String
  menuItemId : String
  quantity : Int
deriving DecidableEq

/-- One item of an order document (`menuItemId` stored as the padded-hex
string `createOrder` writes). -/
structure MOrderItem where
  menuItemId : String
  quantity : Int
deriving DecidableEq

/-- An order document. -/
structure MOrder where
  oid : String
  userId : String
  items : List MOrderItem
  status : OrderStatus
  total : Rat
  createdAt : Nat
  address : Option String
  paymentId : Option String
deriving DecidableEq

/-- What `convertOrderDocToType` returns: numeric ids for the order and its
user, the raw document items passed through. -/
structure MOrderResult where
  id : Nat
  userId : Nat
  items : List MOrderItem
  status : OrderStatus
  total : Rat
  createdAt : Nat
  address : Option String
  paymentId : Option String
deriving DecidableEq

/-- The document store plus the ObjectIds MongoDB will assign next. -/
structure MongoState where
  users : List MUser
  menuItems : List MMenuItem
  cartItems : List MCartItem
  orders : List MOrder
  oidSupply : List String
deriving DecidableEq

/-- `convertUserDocToType`. -/
def convertUserDocToType (d : MUser) : User :=
  { id := objectIdToNumericId d.oid, username := d.username,
    password := d.password, name := d.name, email := d.email,
    isAdmin := d.isAdmin }

/-- `convertMenuItemDocToType`. -/
def convertMenuItemDocToType (d : MMenuItem) : MenuItem :=
  { id := objectIdToNumericId d.oid, name := d.name,
    description := d.description, price := d.price, imageUrl := d.imageUrl,
    category := d.category, rating := d.rating, isPopular := d.isPopular }

/-- `convertCartItemDocToType`. -/
def convertCartItemDocToType (d : MCartItem) : CartItem :=
  { id := objectIdToNumericId d.oid, userId := objectIdToNumericId d.userId,
    menuItemId := objectIdToNumericId d.menuItemId, quantity := d.quantity }

/-- `convertOrderDocToType` (the document items pass through unchanged). -/
def convertOrderDocToType (d : MOrder) : MOrderResult :=
  { id := objectIdToNumericId d.oid, userId := objectIdToNumericId d.userId,
    items := d.items, status := d.status, total := d.total,
    createdAt := d.createdAt, address := d.address, paymentId := d.paymentId }

/-- `findById` on a collection. -/
def mongoFindById {α : Type} (l : List α) (oid : α → String) (id : String) :
    Option α :=
  l.find? (fun d => oid d == id)

/-- `MongoStorage.getUser` on a numeric id: strategy 2 — look up by the
zero-padded hex translation of the id — and, when that misses, strategy 3 —
scan all users for one whose translated numeric id matches.  (Strategy 1
applies only to 24-character string arguments, which the numeric `IStorage`
interface never passes.) -/
def mongo_getUser (st : MongoState) (id : Nat) : Option User :=
  match mongoFindById st.users MUser.oid (numericIdToHex24 id) with
  | some u => some (convertUserDocToType u)
  | none =>
    (st.users.find? (fun u => objectIdToNumericId u.oid == id)).map
      convertUserDocToType

/-- `MongoStorage.getUserByUsername`: exact `findOne { username }`. -/
def mongo_getUserByUsername (st : MongoState) (username : String) : Option User :=
  (st.users.find? (fun u => u.username == username)).map convertUserDocToType

/-- `MongoStorage.createUser` (the ObjectId comes from the store). -/
def mongo_createUser (st : MongoState) (iu : InsertUser) :
    Option User × MongoState :=
  match st.oidSupply with
  | [] => (none, st)
  | oid :: rest =>
    let d : MUser :=
      { oid := oid, username := iu.username, password := iu.password,
        name := iu.name, email := iu.email, isAdmin := iu.isAdmin }
    (some (convertUserDocToType d),
     { st with users := st.users ++ [d], oidSupply := rest })

/-- `MongoStorage.getAllMenuItems`. -/
def mongo_getAllMenuItems (st : MongoState) : List MenuItem :=
  st.menuItems.map convertMenuItemDocToType

/-- `MongoStorage.getMenuItemById`: a single `findById` under the
padded-hex translation of the numeric id — no fallback. -/
def mongo_getMenuItemById (st : MongoState) (id : Nat) : Option MenuItem :=
  (mongoFindById st.menuItems MMenuItem.oid (numericIdToHex24 id)).map
    convertMenuItemDocToType

/-- `MongoStorage.createMenuItem` (`rating` defaults to 0). -/
def mongo_createMenuItem (st : MongoState) (im : InsertMenuItem) :
    Option MenuItem × MongoState :=
  match st.oidSupply with
  | [] => (none, st)
  | oid :: rest =>
    let d : MMenuItem :=
      { oid := oid, name := im.name, description := im.description,
        price := im.price, imageUrl := im.imageUrl, category := im.category,
        rating := 0, isPopular := im.isPopular }
    (some (convertMenuItemDocToType d),
     { st with menuItems := st.menuItems ++ [d], oidSupply := rest })

/-- `MongoStorage.addToCart`: find the user and the menu item by scanning
for matching translated numeric ids (throwing — `none` here — when either
is missing), then merge into an existing `(user, item)` cart document or
insert a new one.  A zero insert quantity is read as 1
(`insertCartItem.quantity || 1`). -/
def mongo_addToCart (st : MongoState) (ic : InsertCartItem) :
    Option CartItem × MongoState :=
  match st.users.find? (fun u => objectIdToNumericId u.oid == ic.userId) with
  | none => (none, st)
  | some user =>
    match st.menuItems.find? (fun m => objectIdToNumericId m.oid == ic.menuItemId) with
    | none => (none, st)
    | some item =>
      let q := if ic.quantity == 0 then 1 else ic.quantity
      match st.cartItems.find?
          (fun c => c.userId == user.oid && c.menuItemId == item.oid) with
      | some existing =>
        let upd : MCartItem := { existing with quantity := existing.quantity + q }
        (some (convertCartItemDocToType upd),
         { st with cartItems := st.cartItems.map (fun c =>
             if c.oid == existing.oid then upd else c) })
      | none =>
        match st.oidSupply with
        | [] => (none, st)
        | oid :: rest =>
          let d : MCartItem :=
            { oid := oid, userId := user.oid, menuItemId := item.oid,
              quantity := q }
          (some (convertCartItemDocToType d),
           { st with cartItems := st.cartItems ++ [d], oidSupply := rest })

/-- `MongoStorage.createOrder`: user and item ids written as padded hex,
`status: 'pending'` set explicitly, `createdAt` stamped by the store. -/
def mongo_createOrder (st : MongoState) (io : InsertOrder) (now : Nat) :
    Option MOrderResult × MongoState :=
  match st.oidSupply with
  | [] => (none, st)
  | oid :: rest =>
    let d : MOrder :=
      { oid := oid, userId := numericIdToHex24 io.userId,
        items := io.items.map (fun it =>
          { menuItemId := numericIdToHex24 it.menuItemId,
            quantity := it.quantity }),
        status := OrderStatus.pending, total := io.total, createdAt := now,
        address := io.address, paymentId := io.paymentId }
    (some (convertOrderDocToType d),
     { st with orders := st.orders ++ [d], oidSupply := rest })

/-- `MongoStorage.getOrderById`: one `findById` under the padded-hex
translation. -/
def mongo_getOrderById (st : MongoState) (id : Nat) : Option MOrderResult :=
  (mongoFindById st.orders MOrder.oid (numericIdToHex24 id)).map
    convertOrderDocToType

/-- Mongoose `findByIdAndUpdate(stringId, insertMenuItem)`: replace the
insert fields of a menu-item document, keep `rating` and the ObjectId. -/
def applyInsertMMenuItem (e : MMenuItem) (im : InsertMenuItem) : MMenuItem :=
  { e with
    name := im.name
    description := im.description
    price := im.price
    imageUrl := im.imageUrl
    category := im.category
    isPopular := im.isPopular }

/-- `MongoStorage.updateMenuItem`: `findByIdAndUpdate` under the padded-hex
translation of the numeric id. -/
def mongo_updateMenuItem (st : MongoState) (id : Nat) (im : InsertMenuItem) :
    Option MenuItem × MongoState :=
  match mongoFindById st.menuItems MMenuItem.oid (numericIdToHex24 id) with
  | none => (none, st)
  | some e =>
    let upd := applyInsertMMenuItem e im
    (some (convertMenuItemDocToType upd),
     { st with menuItems := st.menuItems.map (fun m =>
         if m.oid == numericIdToHex24 id then upd else m) })

/-- `MongoStorage.deleteMenuItem`: `findByIdAndDelete` under the padded-hex
translation; `!!result` of the found document. -/
def mongo_deleteMenuItem (st : MongoState) (id : Nat) : Bool × MongoState :=
  ((mongoFindById st.menuItems MMenuItem.oid (numericIdToHex24 id)).isSome,
   { st with menuItems := st.menuItems.filter (fun m =>
       !(m.oid == numericIdToHex24 id)) })

/-- `MongoStorage.removeFromCart`: find the user by scanning for the
translated numeric id (throwing — `false` via the catch — when missing),
then walk that user's cart documents and delete the first whose translated
numeric id matches; `false` when none does. -/
def mongo_removeFromCart (st : MongoState) (id userId : Nat) :
    Bool × MongoState :=
  match st.users.find? (fun u => objectIdToNumericId u.oid == userId) with
  | none => (false, st)
  | some user =>
    match (st.cartItems.filter (fun c => c.userId == user.oid)).find?
        (fun c => objectIdToNumericId c.oid == id) with
    | none => (false, st)
    | some item =>
      (true, { st with cartItems := st.cartItems.filter (fun c =>
          !(c.oid == item.oid)) })

/-- `MongoStorage.updateCartItemQuantity`: find the user by numeric-id
scan, find the target among that user's cart documents by translated
numeric id, then `findByIdAndUpdate` its quantity. -/
def mongo_updateCartItemQuantity (st : MongoState) (id userId : Nat)
    (quantity : Int) : Option CartItem × MongoState :=
  match st.users.find? (fun u => objectIdToNumericId u.oid == userId) with
  | none => (none, st)
  | some user =>
    match (st.cartItems.filter (fun c => c.userId == user.oid)).find?
        (fun c => objectIdToNumericId c.oid == id) with
    | none => (none, st)
    | some target =>
      let upd : MCartItem := { target with quantity := quantity }
      (some (convertCartItemDocToType upd),
       { st with cartItems := st.cartItems.map (fun c =>
           if c.oid == target.oid then upd else c) })

/-- `MongoStorage.clearCart`: find the user by numeric-id scan (throwing —
`false` via the catch — when missing), then `deleteMany` that user's cart
documents. -/
def mongo_clearCart (st : MongoState) (userId : Nat) : Bool × MongoState :=
  match st.users.find? (fun u => objectIdToNumericId u.oid == userId) with
  | none => (false, st)
  | some user =>
    (true, { st with cartItems := st.cartItems.filter (fun c =>
        !(c.userId == user.oid)) })

/-- `MongoStorage.updateOrderStatus`: `findByIdAndUpdate` under the
padded-hex translation. -/
def mongo_updateOrderStatus (st : MongoState) (id : Nat) (s : OrderStatus) :
    Option MOrderResult × MongoState :=
  match mongoFindById st.orders MOrder.oid (numericIdToHex24 id) with
  | none => (none, st)
  | some o =>
    let upd : MOrder := { o with status := s }
    (some (convertOrderDocToType upd),
     { st with orders := st.orders.map (fun x =>
         if x.oid == numericIdToHex24 id then upd else x) })

/-- Two cart documents do not address the same `(user, menu item)` pair of
ObjectIds. -/
def mongoDistinctPair (a b : MCartItem) : Prop :=
  a.userId ≠ b.userId ∨ a.menuItemId ≠ b.menuItemId

instance (a b : MCartItem) : Decidable (mongoDistinctPair a b) :=
  inferInstanceAs (Decidable (a.userId ≠ b.userId ∨ a.menuItemId ≠ b.menuItemId))

/-- The state-changing `IStorage` operations on the document-store
backend. -/
inductive MongoOp where
  | createUser (iu : InsertUser)
  | createMenuItem (im : InsertMenuItem)
  | updateMenuItem (id : Nat) (im : InsertMenuItem)
  | deleteMenuItem (id : Nat)
  | addToCart (ic : InsertCartItem)
  | removeFromCart (id userId : Nat)
  | updateCartItemQuantity (id userId : Nat) (quantity : Int)
  | clearCart (userId : Nat)
  | createOrder (io : InsertOrder) (now : Nat)
  | updateOrderStatus (id : Nat) (status : OrderStatus)
deriving DecidableEq

/-- The document-store state after one operation. -/
def mongoApply (op : MongoOp) (st : MongoState) : MongoState :=
  match op with
  | MongoOp.createUser iu => (mongo_createUser st iu).2
  | MongoOp.createMenuItem im => (mongo_createMenuItem st im).2
  | MongoOp.updateMenuItem id im => (mongo_updateMenuItem st id im).2
  | MongoOp.deleteMenuItem id => (mongo_deleteMenuItem st id).2
  | MongoOp.addToCart ic => (mongo_addToCart st ic).2
  | MongoOp.removeFromCart id userId => (mongo_removeFromCart st id userId).2
  | MongoOp.updateCartItemQuantity id userId q =>
      (mongo_updateCartItemQuantity st id userId q).2
  | MongoOp.clearCart userId => (mongo_clearCart st userId).2
  | MongoOp.createOrder io now => (mongo_createOrder st io now).2
  | MongoOp.updateOrderStatus id s => (mongo_updateOrderStatus st id s).2

/-- Document-store states reachable from the empty store by `IStorage`
operations.  The supply of ObjectIds the store will assign is arbitrary,
constrained only by MongoDB's guarantee that `_id`s are never assigned
twice (`supply.Nodup`). -/
inductive MongoReachable : MongoState → Prop where
  | init (supply : List String) (h : supply.Nodup) :
      MongoReachable ⟨[], [], [], [], supply⟩
  | step (st : MongoState) (op : MongoOp) :
      MongoReachable st → MongoReachable (mongoApply op st)

/-- Structural facts for the document store: cart `_id`s are unique and
disjoint from the unassigned supply, the supply never repeats, and no two
cart documents share a `(user, menu item)` pair. -/
structure MongoInv (st : MongoState) : Prop where
  cart_oid_nodup : (st.cartItems.map MCartItem.oid).Nodup
  cart_pair : st.cartItems.Pairwise mongoDistinctPair
  supply_nodup : st.oidSupply.Nodup
  cart_supply_disjoint : ∀ c ∈ st.cartItems, c.oid ∉ st.oidSupply

/-! ## Observations used by the claims -/

/-- The per-order quantities `getOrdersByUserId` reports for a user. -/
def memReportedQuantities (st : MemState) (userId : Nat) : List (List Int) :=
  (mem_getOrdersByUserId st userId).map (fun ow =>
    ow.items.map (fun d => d.quantity))

/-- The per-order menu prices `getOrdersByUserId` reports for a user
(`none` where the menu item no longer exists). -/
def memReportedPrices (st : MemState) (userId : Nat) : List (List (Option Rat)) :=
  (mem_getOrdersByUserId st userId).map (fun ow =>
    ow.items.map (fun d => d.menuItem.map (fun m => m.price)))

/-- The relational analogue of `memReportedQuantities` (an item whose menu
row is gone is skipped rather than reported with an absent menu item). -/
def dbReportedQuantities (st : DbState) (userId : Nat) : List (List Int) :=
  (db_getOrdersByUserId st userId).map (fun ow =>
    ow.items.map (fun d => d.quantity))

/-- How many cart rows a state holds for one `(user, menu item)` pair. -/
def memCartPairRows (st : MemState) (userId menuItemId : Nat) : Nat :=
  (st.cartItems.filter
    (fun c => c.userId == userId && c.menuItemId == menuItemId)).length

/-- The relational analogue of `memCartPairRows`. -/
def dbCartPairRows (st : DbState) (userId menuItemId : Nat) : Nat :=
  (st.cartItems.filter
    (fun c => c.userId == userId && c.menuItemId == menuItemId)).length

/-- The document-store analogue of `memCartPairRows`: cart documents
addressed to one `(user, menu item)` pair of ObjectIds. -/
def mongoCartPairRows (st : MongoState) (userId menuItemId : String) : Nat :=
  (st.cartItems.filter
    (fun c => c.userId == userId && c.menuItemId == menuItemId)).length

theorem toHexDigitsAux_eq_toHexRec (fuel : Nat) :
    ∀ (n : Nat) (acc : List Char), n < 16 ^ (fuel + 1) →
      toHexDigitsAux (fuel + 1) n acc = toHexRec n ++ acc := by
  induction fuel with
  | zero =>
    intro n acc h
    have hn : n < 16 := by simpa using h
    rw [toHexDigitsAux, if_pos hn, toHexRec, dif_pos hn]
    simp
  | succ fuel ih =>
    intro n acc h
    by_cases hn : n < 16
    · rw [toHexDigitsAux, if_pos hn, toHexRec, dif_pos hn]
      simp
    · rw [toHexDigitsAux, if_neg hn, toHexRec, dif_neg hn]
      have hdiv : n / 16 < 16 ^ (fuel + 1) := by
        rw [Nat.div_lt_iff_lt_mul (by omega : 0 < 16)]
        calc n < 16 ^ (fuel + 1 + 1) := h
        _ = 16 ^ (fuel + 1) * 16 := by ring
      rw [ih (n / 16) (Nat.digitChar (n % 16) :: acc) hdiv]
      simp

theorem lt_sixteen_pow_succ (n : Nat) : n < 16 ^ (n + 1) := by
  calc n < 2 ^ n := Nat.lt_two_pow n
  _ ≤ 16 ^ n := Nat.pow_le_pow_left (by omega) n
  _ ≤ 16 ^ (n + 1) := Nat.pow_le_pow_right (by omega) (by omega)

theorem jsToHexString_eq (n : Nat) : jsToHexString n = String.mk (toHexRec n) := by
  rw [jsToHexString, toHexDigitsAux_eq_toHexRec n n [] (lt_sixteen_pow_succ n)]
  simp

theorem parseHexList_append_singleton (l : List Char) (c : Char) :
    parseHexList (l ++ [c]) = 16 * parseHexList l + hexVal c := by
  simp [parseHexList, List.foldl_append]

theorem lowerHex_cases (c : Char) (h : isLowerHexDigit c = true) :
    ∃ n, n < 16 ∧ c = Nat.digitChar n := by
  rw [isLowerHexDigit, lowerHexDigits, List.contains_eq_any_beq,
    List.any_eq_true] at h
  obtain ⟨x, hx, hcx⟩ := h
  obtain ⟨n, hn, rfl⟩ := List.mem_map.mp hx
  exact ⟨n, List.mem_range.mp hn, by simpa using hcx⟩

theorem digitChar_hexVal (c : Char) (h : isLowerHexDigit c = true) :
    Nat.digitChar (hexVal c) = c := by
  obtain ⟨n, hn, rfl⟩ := lowerHex_cases c h
  interval_cases n <;> decide

theorem hexVal_lt_sixteen (c : Char) (h : isLowerHexDigit c = true) :
    hexVal c < 16 := by
  obtain ⟨n, hn, rfl⟩ := lowerHex_cases c h
  interval_cases n <;> decide

theorem hexVal_pos (c : Char) (h : isLowerHexDigit c = true) (h0 : c ≠ '0') :
    1 ≤ hexVal c := by
  obtain ⟨n, hn, rfl⟩ := lowerHex_cases c h
  interval_cases n <;> first
    | exact absurd (by decide) h0
    | decide

theorem hexValIsSome_of_lower (c : Char) (h : isLowerHexDigit c = true) :
    (hexVal? c).isSome = true := by
  obtain ⟨n, hn, rfl⟩ := lowerHex_cases c h
  interval_cases n <;> decide

theorem foldlHex_ge_one (l : List Char) :
    ∀ a : Nat, 1 ≤ a → 1 ≤ l.foldl (fun a c => 16 * a + hexVal c) a := by
  induction l with
  | nil => intro a ha; simpa using ha
  | cons c l ih =>
    intro a ha
    simp only [List.foldl_cons]
    exact ih _ (by omega)

theorem parseHexList_pos (t : List Char) (hhex : ∀ c ∈ t, isLowerHexDigit c = true)
    (hne : t ≠ []) (hh : ∀ c, t.head? = some c → c ≠ '0') :
    1 ≤ parseHexList t := by
  cases t with
  | nil => exact absurd rfl hne
  | cons c r =>
    have hc : isLowerHexDigit c = true := hhex c (by simp)
    have h0 : c ≠ '0' := hh c rfl
    have h1 : 1 ≤ hexVal c := hexVal_pos c hc h0
    simp only [parseHexList, List.foldl_cons]
    exact foldlHex_ge_one r _ (by omega)

theorem head?_append_left {l r : List Char} (h : l ≠ []) :
    (l ++ r).head? = l.head? := by
  cases l with
  | nil => exact absurd rfl h
  | cons a t => simp

/-- Parsing and re-printing is the identity on a hex string with no leading
zero. -/
theorem toHexRec_parseHexList (t : List Char)
    (hhex : ∀ c ∈ t, isLowerHexDigit c = true) (hne : t ≠ [])
    (hh : ∀ c, t.head? = some c → c ≠ '0') :
    toHexRec (parseHexList t) = t := by
  induction t using List.reverseRecOn with
  | nil => exact absurd rfl hne
  | append_singleton l c ih =>
    have hc : isLowerHexDigit c = true := hhex c (by simp)
    rw [parseHexList_append_singleton]
    by_cases hl : l = []
    · subst hl
      simp only [parseHexList, List.foldl_nil, Nat.mul_zero, Nat.zero_add]
      rw [toHexRec, dif_pos (hexVal_lt_sixteen c hc)]
      simp [digitChar_hexVal c hc]
    · have hhexl : ∀ x ∈ l, isLowerHexDigit x = true := by
        intro x hx; exact hhex x (by simp [hx])
      have hhl : ∀ x, l.head? = some x → x ≠ '0' := by
        intro x hx
        exact hh x (by rw [head?_append_left hl, hx])
      have hp : 1 ≤ parseHexList l := parseHexList_pos l hhexl hl hhl
      have hd : hexVal c < 16 := hexVal_lt_sixteen c hc
      have hbig : ¬ (16 * parseHexList l + hexVal c < 16) := by omega
      rw [toHexRec, dif_neg hbig]
      have hdiv : (16 * parseHexList l + hexVal c) / 16 = parseHexList l := by
        omega
      have hmod : (16 * parseHexList l + hexVal c) % 16 = hexVal c := by
        omega
      rw [hdiv, hmod, ih hhexl hl hhl, digitChar_hexVal c hc]

theorem parseHexList_replicate_zero_append (j : Nat) (t : List Char) :
    parseHexList (List.replicate j '0' ++ t) = parseHexList t := by
  induction j with
  | zero => simp
  | succ j ih =>
    rw [List.replicate_succ]
    simpa [parseHexList] using ih

theorem dropWhile_head_not {p : Char → Bool} {l : List Char} {c : Char}
    {r : List Char} (h : l.dropWhile p = c :: r) : p c = false := by
  induction l with
  | nil => simp at h
  | cons a t ih =>
    rw [List.dropWhile_cons] at h
    by_cases hp : p a = true
    · rw [if_pos hp] at h; exact ih h
    · rw [if_neg hp] at h
      cases h
      simpa using hp

theorem takeWhile_zero_eq_replicate (l : List Char) :
    l.takeWhile (fun c => c == '0') =
      List.replicate (l.takeWhile (fun c => c == '0')).length '0' := by
  induction l with
  | nil => simp
  | cons a t ih =>
    rw [List.takeWhile_cons]
    by_cases hp : a = '0'
    · subst hp
      simp only [beq_self_eq_true, if_pos]
      rw [List.length_cons, List.replicate_succ]
      exact congrArg _ ih
    · simp [hp]

theorem takeWhile_hex_all (l : List Char)
    (h : ∀ c ∈ l, isLowerHexDigit c = true) :
    l.takeWhile (fun c => (hexVal? c).isSome) = l := by
  induction l with
  | nil => simp
  | cons a t ih =>
    rw [List.takeWhile_cons,
      if_pos (hexValIsSome_of_lower a (h a (by simp)))]
    exact congrArg _ (ih (fun c hc => h c (by simp [hc])))

/-! ## Generic lemmas about the map embedding -/

section MapLemmas

variable {α β : Type} {key : α → Nat}

theorem fresh_key_ne {l : List α} {n : Nat} (hlt : ∀ x ∈ l, key x < n) :
    ∀ x ∈ l, key x ≠ n :=
  fun x hx => Nat.ne_of_lt (hlt x hx)

theorem any_key_eq_false {l : List α} {k : Nat} (h : ∀ x ∈ l, key x ≠ k) :
    l.any (fun x => key x == k) = false := by
  rw [List.any_eq_false]
  intro x hx
  simpa using h x hx

theorem mapSet_fresh {l : List α} {k : Nat} {v : α} (h : ∀ x ∈ l, key x ≠ k) :
    mapSet l key k v = l ++ [v] := by
  simp [mapSet, any_key_eq_false h]

theorem find?_key_eq_none {l : List α} {k : Nat} (h : ∀ x ∈ l, key x ≠ k) :
    l.find? (fun x => key x == k) = none := by
  rw [List.find?_eq_none]
  intro x hx
  simpa using h x hx

theorem find?_append_fresh {l : List α} {k : Nat} {v : α}
    (h : ∀ x ∈ l, key x ≠ k) (hv : key v = k) :
    (l ++ [v]).find? (fun x => key x == k) = some v := by
  induction l with
  | nil => simp [List.find?, hv]
  | cons a t ih =>
    rw [List.cons_append, List.find?_cons_of_neg _ (by simpa using h a (by simp))]
    exact ih (fun x hx => h x (by simp [hx]))

theorem map_keys_pointwise {l : List α} {f : α → α}
    (h : ∀ x ∈ l, key (f x) = key x) :
    (l.map f).map key = l.map key := by
  rw [List.map_map]
  exact List.map_congr_left h

theorem mapSet_keys_eq {l : List α} {k : Nat} {v : α} (hv : key v = k)
    (hmem : l.any (fun x => key x == k) = true) :
    (mapSet l key k v).map key = l.map key := by
  rw [mapSet, if_pos hmem]
  apply map_keys_pointwise
  intro x _
  by_cases hx : key x = k
  · simp [hx, hv]
  · simp [hx]

theorem lt_of_keys_eq {l l' : List α} {n : Nat}
    (hk : l'.map key = l.map key) (hlt : ∀ x ∈ l, key x < n) :
    ∀ x ∈ l', key x < n := by
  intro x hx
  have hm : key x ∈ l'.map key := List.mem_map_of_mem key hx
  rw [hk] at hm
  obtain ⟨y, hy, hyx⟩ := List.mem_map.mp hm
  exact hyx ▸ hlt y hy

theorem nodup_append_fresh {l : List α} {n : Nat} {v : α}
    (hnd : (l.map key).Nodup) (hlt : ∀ x ∈ l, key x < n) (hv : key v = n) :
    ((l ++ [v]).map key).Nodup := by
  rw [List.map_append]
  refine List.Nodup.append hnd (by simp) ?_
  intro a ha hb
  obtain ⟨y, hy, hya⟩ := List.mem_map.mp ha
  have hb2 : a = key v := by simpa using hb
  exact fresh_key_ne hlt y hy (by rw [hya, hb2, hv])

theorem lt_append_fresh {l : List α} {n : Nat} {v : α}
    (hlt : ∀ x ∈ l, key x < n) (hv : key v = n) :
    ∀ x ∈ l ++ [v], key x < n + 1 := by
  intro x hx
  rcases List.mem_append.mp hx with hx | hx
  · exact Nat.lt_succ_of_lt (hlt x hx)
  · rw [List.mem_singleton.mp hx, hv]
    exact Nat.lt_succ_self n

theorem nodup_of_sublist_keys {l l' : List α}
    (hs : l'.Sublist l) (hnd : (l.map key).Nodup) :
    (l'.map key).Nodup :=
  List.Nodup.sublist (List.Sublist.map key hs) hnd

theorem filter_ne_replaceAll {l : List α} {k : Nat} {v : α} (hv : key v = k) :
    ((l.map (fun x => if key x == k then v else x)).filter
        (fun x => !(key x == k))) =
      l.filter (fun x => !(key x == k)) := by
  induction l with
  | nil => simp
  | cons a t ih =>
    by_cases ha : key a = k
    · simpa [List.filter_cons, ha, hv] using ih
    · simpa [List.filter_cons, ha] using ih

theorem filter_ne_mapSet {l : List α} {k : Nat} {v : α} (hv : key v = k) :
    ((mapSet l key k v).filter (fun x => !(key x == k))) =
      l.filter (fun x => !(key x == k)) := by
  rw [mapSet]
  by_cases hm : l.any (fun x => key x == k) = true
  · rw [if_pos hm]
    exact filter_ne_replaceAll hv
  · rw [if_neg hm]
    simp [List.filter_append, hv]

theorem length_mapSet_replace {l : List α} {k : Nat} {v : α}
    (hmem : l.any (fun x => key x == k) = true) :
    (mapSet l key k v).length = l.length := by
  rw [mapSet, if_pos hmem, List.length_map]

theorem key_injective_of_nodup {l : List α} (hnd : (l.map key).Nodup)
    {x y : α} (hx : x ∈ l) (hy : y ∈ l) (h : key x = key y) : x = y :=
  List.inj_on_of_nodup_map hnd hx hy h

end MapLemmas

theorem find?_congr_mem {α : Type} {p q : α → Bool} {l : List α}
    (h : ∀ x ∈ l, p x = q x) : l.find? p = l.find? q := by
  induction l with
  | nil => rfl
  | cons a t ih =>
    have ha := h a (by simp)
    cases hqa : q a with
    | true =>
      rw [List.find?_cons_of_pos _ (by rw [ha, hqa]),
        List.find?_cons_of_pos _ hqa]
    | false =>
      rw [List.find?_cons_of_neg _ (by rw [ha, hqa]; simp),
        List.find?_cons_of_neg _ (by simp [hqa])]
      exact ih (fun x hx => h x (by simp [hx]))

/-! ## Claim C1: the ObjectId / numeric-id round trip -/

/-- C1 (amended): the identifier round trip `store id → numeric id → store
id` is the identity exactly on the store identifiers whose first 18 hex
digits are zero; for a 24-digit lower-hex ObjectId of that shape, parsing
the last 6 digits (`objectIdToNumericId`) and re-encoding the number as a
24-character zero-padded hex string (as `getMenuItemById`, `getUser` and
`getOrderById` do) returns the original identifier. -/
theorem claim1_roundtrip_zero_prefixed (s : String)
    (hlen : s.data.length = 24)
    (hhex : ∀ c ∈ s.data, isLowerHexDigit c = true)
    (hzeros : s.data.take 18 = List.replicate 18 '0') :
    numericIdToHex24 (objectIdToNumericId s) = s := by
  obtain ⟨l⟩ := s
  rw [show (String.mk l).data = l from rfl] at hlen hhex hzeros
  have h18 : l.length - 6 = 18 := by omega
  set t := l.drop 18 with ht
  have htlen : t.length = 6 := by rw [ht, List.length_drop, hlen]
  have hsplit : List.replicate 18 '0' ++ t = l := by
    rw [← hzeros, ht]
    exact List.take_append_drop 18 l
  have hhext : ∀ c ∈ t, isLowerHexDigit c = true := by
    intro c hc
    exact hhex c (List.drop_subset 18 l hc)
  have hparseform : objectIdToNumericId (String.mk l) = parseHexList t := by
    simp only [objectIdToNumericId, jsParseIntHex]
    rw [h18, ← ht, takeWhile_hex_all t hhext]
  set t0 := t.dropWhile (fun c => c == '0') with ht0def
  set k := (t.takeWhile (fun c => c == '0')).length with hkdef
  have htk : List.replicate k '0' ++ t0 = t := by
    rw [hkdef, ← takeWhile_zero_eq_replicate, ht0def]
    exact List.takeWhile_append_dropWhile _ _
  have hk6 : k + t0.length = 6 := by
    have hlenk := congrArg List.length htk
    simpa [htlen] using hlenk
  by_cases h0 : t0 = []
  · have hkk : k = 6 := by
      rw [h0] at hk6
      simpa using hk6
    have hT : t = List.replicate 6 '0' := by
      rw [← htk, h0, hkk]
      simp
    have hparse0 : parseHexList t = 0 := by
      rw [hT]
      have h := parseHexList_replicate_zero_append 6 []
      simpa [parseHexList] using h
    have hl : l = List.replicate 24 '0' := by
      rw [← hsplit, hT, ← List.replicate_add]
    rw [hparseform, hparse0, hl]
    decide
  · have hhext0 : ∀ c ∈ t0, isLowerHexDigit c = true := by
      intro c hc
      refine hhext c ?_
      rw [ht0def] at hc
      exact (List.dropWhile_sublist _).subset hc
    have hhead : ∀ c, t0.head? = some c → c ≠ '0' := by
      intro c hc hc0
      cases hcase : t0 with
      | nil => rw [hcase] at hc; simp at hc
      | cons a r =>
        rw [hcase] at hc
        have hac : a = c := by simpa using hc
        have hdrop : t.dropWhile (fun c => c == '0') = a :: r := by
          rw [← ht0def, hcase]
        have := dropWhile_head_not hdrop
        rw [hac, hc0] at this
        simp at this
    have hparse2 : parseHexList t = parseHexList t0 := by
      rw [← htk, parseHexList_replicate_zero_append]
    have hrec : toHexRec (parseHexList t0) = t0 :=
      toHexRec_parseHexList t0 hhext0 h0 hhead
    rw [hparseform, hparse2, numericIdToHex24, jsToHexString_eq, hrec,
      jsPadStart24, show (String.mk t0).data = t0 from rfl]
    have harith : 24 - t0.length = 18 + k := by omega
    rw [harith, ← hsplit, ← htk]
    simp [List.replicate_add, List.append_assoc]

/-- C1 (counterexample): the round trip is not the identity on every
24-hex-digit store identifier — for the ObjectId
`"5f1a2b3c4d5e6f7a8b9c0d1e"` (24 lower-hex digits), converting to the
numeric id and back yields `"0000000000000000009c0d1e"`, a different
identifier, so a padded-hex lookup misses the original document. -/
theorem claim1_roundtrip_fails_in_general :
    "5f1a2b3c4d5e6f7a8b9c0d1e".data.length = 24 ∧
    (∀ c ∈ "5f1a2b3c4d5e6f7a8b9c0d1e".data, isLowerHexDigit c = true) ∧
    numericIdToHex24 (objectIdToNumericId "5f1a2b3c4d5e6f7a8b9c0d1e") ≠
      "5f1a2b3c4d5e6f7a8b9c0d1e" := by
  refine ⟨by decide, by decide, by decide⟩

/-- C1 (witness): the amended round trip at the concrete zero-prefixed
identifier `"0000000000000000009c0d1e"`. -/
theorem claim1_witness :
    numericIdToHex24 (objectIdToNumericId "0000000000000000009c0d1e") =
      "0000000000000000009c0d1e" :=
  claim1_roundtrip_zero_prefixed "0000000000000000009c0d1e" (by decide)
    (by decide) (by decide)

/-! ## Pairwise lemmas for the cart invariant -/

theorem pairwise_map_pair_preserving {l : List CartItem} {f : CartItem → CartItem}
    (h : ∀ x ∈ l, (f x).userId = x.userId ∧ (f x).menuItemId = x.menuItemId)
    (hp : l.Pairwise distinctPair) : (l.map f).Pairwise distinctPair := by
  rw [List.pairwise_map]
  refine hp.imp_of_mem ?_
  intro a b ha hb hab
  obtain ⟨hu1, hm1⟩ := h a ha
  obtain ⟨hu2, hm2⟩ := h b hb
  rcases hab with h1 | h1
  · exact Or.inl (by rw [hu1, hu2]; exact h1)
  · exact Or.inr (by rw [hm1, hm2]; exact h1)

theorem pairwise_append_fresh_pair {l : List CartItem} {v : CartItem}
    (hp : l.Pairwise distinctPair)
    (hnone : ∀ x ∈ l, ¬(x.userId = v.userId ∧ x.menuItemId = v.menuItemId)) :
    (l ++ [v]).Pairwise distinctPair := by
  rw [List.pairwise_append]
  refine ⟨hp, by simp, ?_⟩
  intro a ha b hb
  have hb2 : b = v := by simpa using hb
  rw [hb2]
  by_cases hu : a.userId = v.userId
  · exact Or.inr (fun hm => hnone a ha ⟨hu, hm⟩)
  · exact Or.inl hu

theorem pairwise_filter_pair {l : List CartItem} (p : CartItem → Bool)
    (hp : l.Pairwise distinctPair) : (l.filter p).Pairwise distinctPair :=
  List.Pairwise.sublist (List.filter_sublist l) hp

/-! ## `clearCart`: the fold of deletions is a filter -/

theorem foldl_mapDelete_eq_filter (ds : List CartItem) (l : List CartItem) :
    ds.foldl (fun acc item => mapDelete acc (fun x => x.id) item.id) l =
      l.filter (fun x => !((ds.map CartItem.id).contains x.id)) := by
  induction ds generalizing l with
  | nil => simp
  | cons d ds ih =>
    rw [List.foldl_cons, ih, mapDelete, List.filter_filter]
    refine List.filter_congr ?_
    intro x _
    rw [List.map_cons, List.contains_cons]
    cases hd : x.id == d.id <;>
      cases hc : (ds.map CartItem.id).contains x.id <;> rfl

theorem mem_clearCart_cartItems (st : MemState) (uid : Nat)
    (hnd : (st.cartItems.map CartItem.id).Nodup) :
    (mem_clearCart st uid).2.cartItems =
      st.cartItems.filter (fun c => !(c.userId == uid)) := by
  simp only [mem_clearCart]
  rw [foldl_mapDelete_eq_filter]
  refine List.filter_congr ?_
  intro x hx
  suffices hs : ((st.cartItems.filter (fun c => c.userId == uid)).map
      CartItem.id).contains x.id = (x.userId == uid) by rw [hs]
  cases hxu : x.userId == uid with
  | true =>
    have hmem : x ∈ st.cartItems.filter (fun c => c.userId == uid) :=
      List.mem_filter.mpr ⟨hx, hxu⟩
    have hidm : x.id ∈ (st.cartItems.filter (fun c => c.userId == uid)).map
        CartItem.id := List.mem_map_of_mem CartItem.id hmem
    simpa [List.contains, List.elem_iff] using hidm
  | false =>
    cases h2 : ((st.cartItems.filter (fun c => c.userId == uid)).map
        CartItem.id).contains x.id with
    | false => rfl
    | true =>
      have hmem : x.id ∈ (st.cartItems.filter (fun c => c.userId == uid)).map
          CartItem.id := by simpa [List.contains, List.elem_iff] using h2
      obtain ⟨y, hy, hyx⟩ := List.mem_map.mp hmem
      have hyl : y ∈ st.cartItems := (List.mem_filter.mp hy).1
      have hyu : (y.userId == uid) = true := (List.mem_filter.mp hy).2
      have hxy : y = x := key_injective_of_nodup hnd hyl hx hyx
      rw [hxy, hxu] at hyu
      exact absurd hyu Bool.false_ne_true

/-! ## Invariant preservation for the in-memory backend -/

theorem memInv_createUser (st : MemState) (iu : InsertUser) (h : MemInv st) :
    MemInv (mem_createUser st iu).2 := by
  have hfresh : ∀ x ∈ st.users, x.id ≠ st.userIdCounter :=
    fresh_key_ne h.users_lt
  have husers : (mem_createUser st iu).2.users = st.users ++
      [⟨st.userIdCounter, iu.username, iu.password, iu.name, iu.email,
        iu.isAdmin⟩] := by
    simp only [mem_createUser]
    exact mapSet_fresh hfresh
  exact
    { users_nodup := by
        rw [husers]; exact nodup_append_fresh h.users_nodup h.users_lt rfl
      users_lt := by
        rw [husers]; exact lt_append_fresh h.users_lt rfl
      menu_nodup := h.menu_nodup
      menu_lt := h.menu_lt
      cart_nodup := h.cart_nodup
      cart_lt := h.cart_lt
      orders_nodup := h.orders_nodup
      orders_lt := h.orders_lt
      cart_pair := h.cart_pair }

theorem memInv_createMenuItem (st : MemState) (im : InsertMenuItem)
    (h : MemInv st) : MemInv (mem_createMenuItem st im).2 := by
  have hfresh : ∀ x ∈ st.menuItems, x.id ≠ st.menuItemIdCounter :=
    fresh_key_ne h.menu_lt
  have hmenu : (mem_createMenuItem st im).2.menuItems = st.menuItems ++
      [⟨st.menuItemIdCounter, im.name, im.description, im.price, im.imageUrl,
        im.category, 0, im.isPopular⟩] := by
    simp only [mem_createMenuItem]
    exact mapSet_fresh hfresh
  exact
    { users_nodup := h.users_nodup
      users_lt := h.users_lt
      menu_nodup := by
        rw [hmenu]; exact nodup_append_fresh h.menu_nodup h.menu_lt rfl
      menu_lt := by
        rw [hmenu]; exact lt_append_fresh h.menu_lt rfl
      cart_nodup := h.cart_nodup
      cart_lt := h.cart_lt
      orders_nodup := h.orders_nodup
      orders_lt := h.orders_lt
      cart_pair := h.cart_pair }

theorem memInv_updateMenuItem (st : MemState) (id : Nat) (im : InsertMenuItem)
    (h : MemInv st) : MemInv (mem_updateMenuItem st id im).2 := by
  cases hf : st.menuItems.find? (fun m => m.id == id) with
  | none =>
    have hstate : (mem_updateMenuItem st id im).2 = st := by
      simp only [mem_updateMenuItem, hf]
    rw [hstate]; exact h
  | some e =>
    have he_mem : e ∈ st.menuItems := List.mem_of_find?_eq_some hf
    have he_id : e.id = id := by
      have := List.find?_some hf
      simpa using this
    have hmem : st.menuItems.any (fun x => x.id == id) = true :=
      List.any_eq_true.mpr ⟨e, he_mem, by simp [he_id]⟩
    have hstate : (mem_updateMenuItem st id im).2 =
        { st with menuItems := (mapSet st.menuItems (fun x => x.id) id
            (applyInsertMenuItem e im)) } := by
      simp only [mem_updateMenuItem, hf]
    have hkeys : (mapSet st.menuItems (fun x => x.id) id
        (applyInsertMenuItem e im)).map MenuItem.id =
        st.menuItems.map MenuItem.id :=
      mapSet_keys_eq (by simp [applyInsertMenuItem, he_id]) hmem
    rw [hstate]
    exact
      { users_nodup := h.users_nodup
        users_lt := h.users_lt
        menu_nodup := by
          show ((mapSet st.menuItems (fun x => x.id) id
            (applyInsertMenuItem e im)).map MenuItem.id).Nodup
          rw [hkeys]; exact h.menu_nodup
        menu_lt := lt_of_keys_eq hkeys h.menu_lt
        cart_nodup := h.cart_nodup
        cart_lt := h.cart_lt
        orders_nodup := h.orders_nodup
        orders_lt := h.orders_lt
        cart_pair := h.cart_pair }

theorem memInv_deleteMenuItem (st : MemState) (id : Nat) (h : MemInv st) :
    MemInv (mem_deleteMenuItem st id).2 := by
  have hsub : (mem_deleteMenuItem st id).2.menuItems.Sublist st.menuItems := by
    simp only [mem_deleteMenuItem, mapDelete]
    exact List.filter_sublist st.menuItems
  exact
    { users_nodup := h.users_nodup
      users_lt := h.users_lt
      menu_nodup := nodup_of_sublist_keys hsub h.menu_nodup
      menu_lt := fun x hx => h.menu_lt x (hsub.subset hx)
      cart_nodup := h.cart_nodup
      cart_lt := h.cart_lt
      orders_nodup := h.orders_nodup
      orders_lt := h.orders_lt
      cart_pair := h.cart_pair }

theorem memInv_updateCartItemQuantity (st : MemState) (id userId : Nat)
    (q : Int) (h : MemInv st) :
    MemInv (mem_updateCartItemQuantity st id userId q).2 := by
  cases hf : st.cartItems.find? (fun c => c.id == id) with
  | none =>
    have hstate : (mem_updateCartItemQuantity st id userId q).2 = st := by
      simp only [mem_updateCartItemQuantity, hf]
    rw [hstate]; exact h
  | some c =>
    have hc_mem : c ∈ st.cartItems := List.mem_of_find?_eq_some hf
    have hc_id : c.id = id := by
      have := List.find?_some hf
      simpa using this
    cases hcu : c.userId == userId with
    | false =>
      have hstate : (mem_updateCartItemQuantity st id userId q).2 = st := by
        simp only [mem_updateCartItemQuantity, hf, hcu]
        simp
      rw [hstate]; exact h
    | true =>
      have hmem : st.cartItems.any (fun x => x.id == id) = true :=
        List.any_eq_true.mpr ⟨c, hc_mem, by simp [hc_id]⟩
      have hstate : (mem_updateCartItemQuantity st id userId q).2 =
          { st with cartItems := (mapSet st.cartItems (fun x => x.id) id
              { c with quantity := q }) } := by
        simp only [mem_updateCartItemQuantity, hf, hcu]
        simp
      have hmap : mapSet st.cartItems (fun x => x.id) id
          { c with quantity := q } = st.cartItems.map
            (fun x => if x.id == id then { c with quantity := q } else x) := by
        rw [mapSet, if_pos hmem]
      have hkeys : (mapSet st.cartItems (fun x => x.id) id
          { c with quantity := q }).map CartItem.id =
          st.cartItems.map CartItem.id :=
        mapSet_keys_eq (by simp [hc_id]) hmem
      rw [hstate]
      exact
        { users_nodup := h.users_nodup
          users_lt := h.users_lt
          menu_nodup := h.menu_nodup
          menu_lt := h.menu_lt
          cart_nodup := by
            show ((mapSet st.cartItems (fun x => x.id) id
              { c with quantity := q }).map CartItem.id).Nodup
            rw [hkeys]; exact h.cart_nodup
          cart_lt := lt_of_keys_eq hkeys h.cart_lt
          orders_nodup := h.orders_nodup
          orders_lt := h.orders_lt
          cart_pair := by
            show (mapSet st.cartItems (fun x => x.id) id
              { c with quantity := q }).Pairwise distinctPair
            rw [hmap]
            apply pairwise_map_pair_preserving ?_ h.cart_pair
            intro x hx
            by_cases hxid : x.id = id
            · have hxc : x = c :=
                key_injective_of_nodup h.cart_nodup hx hc_mem
                  (by rw [hxid, hc_id])
              simp [hxid, hxc, hc_id]
            · simp [hxid] }

theorem memInv_addToCart (st : MemState) (ic : InsertCartItem) (h : MemInv st) :
    MemInv (mem_addToCart st ic).2 := by
  cases hf : st.cartItems.find?
      (fun c => c.userId == ic.userId && c.menuItemId == ic.menuItemId) with
  | some existing =>
    have hstate : (mem_addToCart st ic).2 =
        (mem_updateCartItemQuantity st existing.id ic.userId
          (existing.quantity + ic.quantity)).2 := by
      simp only [mem_addToCart, hf]
    rw [hstate]
    exact memInv_updateCartItemQuantity st existing.id ic.userId
      (existing.quantity + ic.quantity) h
  | none =>
    have hfresh : ∀ x ∈ st.cartItems, x.id ≠ st.cartItemIdCounter :=
      fresh_key_ne h.cart_lt
    have hnone : ∀ x ∈ st.cartItems,
        ¬(x.userId = ic.userId ∧ x.menuItemId = ic.menuItemId) := by
      intro x hx hand
      have := List.find?_eq_none.mp hf x hx
      simp [hand.1, hand.2] at this
    have hstate : (mem_addToCart st ic).2 = { st with
        cartItems := st.cartItems ++
          [⟨st.cartItemIdCounter, ic.userId, ic.menuItemId, ic.quantity⟩],
        cartItemIdCounter := st.cartItemIdCounter + 1 } := by
      simp only [mem_addToCart, hf]
      rw [mapSet_fresh hfresh]
    rw [hstate]
    exact
      { users_nodup := h.users_nodup
        users_lt := h.users_lt
        menu_nodup := h.menu_nodup
        menu_lt := h.menu_lt
        cart_nodup := nodup_append_fresh h.cart_nodup h.cart_lt rfl
        cart_lt := lt_append_fresh h.cart_lt rfl
        orders_nodup := h.orders_nodup
        orders_lt := h.orders_lt
        cart_pair := pairwise_append_fresh_pair h.cart_pair hnone }

theorem memInv_removeFromCart (st : MemState) (id userId : Nat)
    (h : MemInv st) : MemInv (mem_removeFromCart st id userId).2 := by
  have hshape : (mem_removeFromCart st id userId).2 =
      { st with cartItems := (mem_removeFromCart st id userId).2.cartItems } := by
    cases hf : st.cartItems.find? (fun c => c.id == id) with
    | none => simp only [mem_removeFromCart, hf]
    | some c =>
      cases hcu : c.userId == userId with
      | false => simp only [mem_removeFromCart, hf, hcu]; simp
      | true => simp only [mem_removeFromCart, hf, hcu]; simp
  have hsub : (mem_removeFromCart st id userId).2.cartItems.Sublist
      st.cartItems := by
    cases hf : st.cartItems.find? (fun c => c.id == id) with
    | none =>
      simp only [mem_removeFromCart, hf]
      exact List.Sublist.refl _
    | some c =>
      cases hcu : c.userId == userId with
      | false =>
        simp only [mem_removeFromCart, hf, hcu]
        simp only [Bool.false_eq_true, if_false]
        exact List.Sublist.refl _
      | true =>
        simp only [mem_removeFromCart, hf, hcu, if_pos, mapDelete]
        exact List.filter_sublist st.cartItems
  rw [hshape]
  exact
    { users_nodup := h.users_nodup
      users_lt := h.users_lt
      menu_nodup := h.menu_nodup
      menu_lt := h.menu_lt
      cart_nodup := nodup_of_sublist_keys hsub h.cart_nodup
      cart_lt := fun x hx => h.cart_lt x (hsub.subset hx)
      orders_nodup := h.orders_nodup
      orders_lt := h.orders_lt
      cart_pair := List.Pairwise.sublist hsub h.cart_pair }

theorem memInv_clearCart (st : MemState) (userId : Nat) (h : MemInv st) :
    MemInv (mem_clearCart st userId).2 := by
  have hcart := mem_clearCart_cartItems st userId h.cart_nodup
  have hsub : (mem_clearCart st userId).2.cartItems.Sublist st.cartItems := by
    rw [hcart]
    exact List.filter_sublist st.cartItems
  exact
    { users_nodup := h.users_nodup
      users_lt := h.users_lt
      menu_nodup := h.menu_nodup
      menu_lt := h.menu_lt
      cart_nodup := nodup_of_sublist_keys hsub h.cart_nodup
      cart_lt := fun x hx => h.cart_lt x (hsub.subset hx)
      orders_nodup := h.orders_nodup
      orders_lt := h.orders_lt
      cart_pair := List.Pairwise.sublist hsub h.cart_pair }

theorem memInv_createOrder (st : MemState) (io : InsertOrder) (now : Nat)
    (h : MemInv st) : MemInv (mem_createOrder st io now).2 := by
  have hfresh : ∀ x ∈ st.orders, x.id ≠ st.orderIdCounter :=
    fresh_key_ne h.orders_lt
  have horders : (mem_createOrder st io now).2.orders = st.orders ++
      [⟨st.orderIdCounter, io.userId, io.items, OrderStatus.pending, io.total,
        now, io.address, io.paymentId⟩] := by
    simp only [mem_createOrder]
    exact mapSet_fresh hfresh
  exact
    { users_nodup := h.users_nodup
      users_lt := h.users_lt
      menu_nodup := h.menu_nodup
      menu_lt := h.menu_lt
      cart_nodup := h.cart_nodup
      cart_lt := h.cart_lt
      orders_nodup := by
        rw [horders]; exact nodup_append_fresh h.orders_nodup h.orders_lt rfl
      orders_lt := by
        rw [horders]; exact lt_append_fresh h.orders_lt rfl
      cart_pair := h.cart_pair }

theorem memInv_updateOrderStatus (st : MemState) (id : Nat) (s : OrderStatus)
    (h : MemInv st) : MemInv (mem_updateOrderStatus st id s).2 := by
  cases hf : st.orders.find? (fun o => o.id == id) with
  | none =>
    have hstate : (mem_updateOrderStatus st id s).2 = st := by
      simp only [mem_updateOrderStatus, hf]
    rw [hstate]; exact h
  | some o =>
    have ho_mem : o ∈ st.orders := List.mem_of_find?_eq_some hf
    have ho_id : o.id = id := by
      have := List.find?_some hf
      simpa using this
    have hmem : st.orders.any (fun x => x.id == id) = true :=
      List.any_eq_true.mpr ⟨o, ho_mem, by simp [ho_id]⟩
    have hstate : (mem_updateOrderStatus st id s).2 =
        { st with orders := (mapSet st.orders (fun x => x.id) id
            { o with status := s }) } := by
      simp only [mem_updateOrderStatus, hf]
    have hkeys : (mapSet st.orders (fun x => x.id) id
        { o with status := s }).map Order.id = st.orders.map Order.id :=
      mapSet_keys_eq (by simp [ho_id]) hmem
    rw [hstate]
    exact
      { users_nodup := h.users_nodup
        users_lt := h.users_lt
        menu_nodup := h.menu_nodup
        menu_lt := h.menu_lt
        cart_nodup := h.cart_nodup
        cart_lt := h.cart_lt
        orders_nodup := by
          show ((mapSet st.orders (fun x => x.id) id
            { o with status := s }).map Order.id).Nodup
          rw [hkeys]; exact h.orders_nodup
        orders_lt := lt_of_keys_eq hkeys h.orders_lt
        cart_pair := h.cart_pair }

theorem memInv_apply (op : MemOp) (st : MemState) (h : MemInv st) :
    MemInv (memApply op st) := by
  cases op with
  | createUser iu => exact memInv_createUser st iu h
  | createMenuItem im => exact memInv_createMenuItem st im h
  | updateMenuItem id im => exact memInv_updateMenuItem st id im h
  | deleteMenuItem id => exact memInv_deleteMenuItem st id h
  | addToCart ic => exact memInv_addToCart st ic h
  | removeFromCart id userId => exact memInv_removeFromCart st id userId h
  | updateCartItemQuantity id userId q =>
    exact memInv_updateCartItemQuantity st id userId q h
  | clearCart userId => exact memInv_clearCart st userId h
  | createOrder io now => exact memInv_createOrder st io now h
  | updateOrderStatus id s => exact memInv_updateOrderStatus st id s h

theorem memInv_init : MemInv initMemState :=
  { users_nodup := by decide
    users_lt := by decide
    menu_nodup := by decide
    menu_lt := by decide
    cart_nodup := by decide
    cart_lt := by decide
    orders_nodup := by decide
    orders_lt := by decide
    cart_pair := by decide }

theorem memReachable_inv {st : MemState} (h : MemReachable st) : MemInv st := by
  induction h with
  | init => exact memInv_init
  | step st op _ ih => exact memInv_apply op st ih

/-! ## Invariant preservation for the relational backend -/

theorem dbInv_createUser (st : DbState) (iu : InsertUser) (h : DbInv st) :
    DbInv (db_createUser st iu).2 :=
  { users_nodup := nodup_append_fresh h.users_nodup h.users_lt rfl
    users_lt := lt_append_fresh h.users_lt rfl
    menu_nodup := h.menu_nodup
    menu_lt := h.menu_lt
    cart_nodup := h.cart_nodup
    cart_lt := h.cart_lt
    orders_nodup := h.orders_nodup
    orders_lt := h.orders_lt
    cart_pair := h.cart_pair }

theorem dbInv_createMenuItem (st : DbState) (im : InsertMenuItem)
    (h : DbInv st) : DbInv (db_createMenuItem st im).2 :=
  { users_nodup := h.users_nodup
    users_lt := h.users_lt
    menu_nodup := nodup_append_fresh h.menu_nodup h.menu_lt rfl
    menu_lt := lt_append_fresh h.menu_lt rfl
    cart_nodup := h.cart_nodup
    cart_lt := h.cart_lt
    orders_nodup := h.orders_nodup
    orders_lt := h.orders_lt
    cart_pair := h.cart_pair }

theorem dbInv_updateMenuItem (st : DbState) (id : Nat) (im : InsertMenuItem)
    (h : DbInv st) : DbInv (db_updateMenuItem st id im).2 := by
  have hkeys : (st.menuItems.map (fun m =>
      if m.id == id then applyInsertMenuItem m im else m)).map MenuItem.id =
      st.menuItems.map MenuItem.id := by
    apply map_keys_pointwise
    intro x _
    by_cases hx : x.id = id
    · simp [hx, applyInsertMenuItem]
    · simp [hx]
  exact
    { users_nodup := h.users_nodup
      users_lt := h.users_lt
      menu_nodup := by
        show ((st.menuItems.map (fun m =>
          if m.id == id then applyInsertMenuItem m im else m)).map
            MenuItem.id).Nodup
        rw [hkeys]; exact h.menu_nodup
      menu_lt := lt_of_keys_eq hkeys h.menu_lt
      cart_nodup := h.cart_nodup
      cart_lt := h.cart_lt
      orders_nodup := h.orders_nodup
      orders_lt := h.orders_lt
      cart_pair := h.cart_pair }

theorem dbInv_deleteMenuItem (st : DbState) (id : Nat) (h : DbInv st) :
    DbInv (db_deleteMenuItem st id).2 := by
  have hsub : (st.menuItems.filter (fun m => !(m.id == id))).Sublist
      st.menuItems := List.filter_sublist st.menuItems
  exact
    { users_nodup := h.users_nodup
      users_lt := h.users_lt
      menu_nodup := nodup_of_sublist_keys hsub h.menu_nodup
      menu_lt := fun x hx => h.menu_lt x (hsub.subset hx)
      cart_nodup := h.cart_nodup
      cart_lt := h.cart_lt
      orders_nodup := h.orders_nodup
      orders_lt := h.orders_lt
      cart_pair := h.cart_pair }

theorem dbInv_updateCartItemQuantity (st : DbState) (id userId : Nat)
    (q : Int) (h : DbInv st) :
    DbInv (db_updateCartItemQuantity st id userId q).2 := by
  have hkeys : (st.cartItems.map (fun c =>
      if c.id == id && c.userId == userId then { c with quantity := q }
      else c)).map CartItem.id = st.cartItems.map CartItem.id := by
    apply map_keys_pointwise
    intro x _
    by_cases hx : x.id = id ∧ x.userId = userId
    · simp [hx.1, hx.2]
    · rcases Decidable.not_and_iff_or_not.mp hx with hx1 | hx1 <;> simp [hx1]
  exact
    { users_nodup := h.users_nodup
      users_lt := h.users_lt
      menu_nodup := h.menu_nodup
      menu_lt := h.menu_lt
      cart_nodup := by
        show ((st.cartItems.map (fun c =>
          if c.id == id && c.userId == userId then { c with quantity := q }
          else c)).map CartItem.id).Nodup
        rw [hkeys]; exact h.cart_nodup
      cart_lt := lt_of_keys_eq hkeys h.cart_lt
      orders_nodup := h.orders_nodup
      orders_lt := h.orders_lt
      cart_pair := by
        apply pairwise_map_pair_preserving ?_ h.cart_pair
        intro x _
        by_cases hx : x.id = id ∧ x.userId = userId
        · simp [hx.1, hx.2]
        · rcases Decidable.not_and_iff_or_not.mp hx with hx1 | hx1 <;> simp [hx1] }

theorem dbInv_addToCart (st : DbState) (ic : InsertCartItem) (h : DbInv st) :
    DbInv (db_addToCart st ic).2 := by
  cases hf : st.cartItems.find?
      (fun c => c.userId == ic.userId && c.menuItemId == ic.menuItemId) with
  | some existing =>
    have hstate : (db_addToCart st ic).2 =
        (db_updateCartItemQuantity st existing.id ic.userId
          (existing.quantity + ic.quantity)).2 := by
      simp only [db_addToCart, hf]
    rw [hstate]
    exact dbInv_updateCartItemQuantity st existing.id ic.userId
      (existing.quantity + ic.quantity) h
  | none =>
    have hnone : ∀ x ∈ st.cartItems,
        ¬(x.userId = ic.userId ∧ x.menuItemId = ic.menuItemId) := by
      intro x hx hand
      have := List.find?_eq_none.mp hf x hx
      simp [hand.1, hand.2] at this
    have hstate : (db_addToCart st ic).2 = { st with
        cartItems := st.cartItems ++
          [⟨st.cartSeq, ic.userId, ic.menuItemId, ic.quantity⟩],
        cartSeq := st.cartSeq + 1 } := by
      simp only [db_addToCart, hf]
    rw [hstate]
    exact
      { users_nodup := h.users_nodup
        users_lt := h.users_lt
        menu_nodup := h.menu_nodup
        menu_lt := h.menu_lt
        cart_nodup := nodup_append_fresh h.cart_nodup h.cart_lt rfl
        cart_lt := lt_append_fresh h.cart_lt rfl
        orders_nodup := h.orders_nodup
        orders_lt := h.orders_lt
        cart_pair := pairwise_append_fresh_pair h.cart_pair hnone }

theorem dbInv_removeFromCart (st : DbState) (id userId : Nat) (h : DbInv st) :
    DbInv (db_removeFromCart st id userId).2 := by
  have hsub : (st.cartItems.filter
      (fun c => !(c.id == id && c.userId == userId))).Sublist st.cartItems :=
    List.filter_sublist st.cartItems
  exact
    { users_nodup := h.users_nodup
      users_lt := h.users_lt
      menu_nodup := h.menu_nodup
      menu_lt := h.menu_lt
      cart_nodup := nodup_of_sublist_keys hsub h.cart_nodup
      cart_lt := fun x hx => h.cart_lt x (hsub.subset hx)
      orders_nodup := h.orders_nodup
      orders_lt := h.orders_lt
      cart_pair := List.Pairwise.sublist hsub h.cart_pair }

theorem dbInv_clearCart (st : DbState) (userId : Nat) (h : DbInv st) :
    DbInv (db_clearCart st userId).2 := by
  have hsub : (st.cartItems.filter (fun c => !(c.userId == userId))).Sublist
      st.cartItems := List.filter_sublist st.cartItems
  exact
    { users_nodup := h.users_nodup
      users_lt := h.users_lt
      menu_nodup := h.menu_nodup
      menu_lt := h.menu_lt
      cart_nodup := nodup_of_sublist_keys hsub h.cart_nodup
      cart_lt := fun x hx => h.cart_lt x (hsub.subset hx)
      orders_nodup := h.orders_nodup
      orders_lt := h.orders_lt
      cart_pair := List.Pairwise.sublist hsub h.cart_pair }

theorem dbInv_createOrder (st : DbState) (io : InsertOrder) (now : Nat)
    (h : DbInv st) : DbInv (db_createOrder st io now).2 :=
  { users_nodup := h.users_nodup
    users_lt := h.users_lt
    menu_nodup := h.menu_nodup
    menu_lt := h.menu_lt
    cart_nodup := h.cart_nodup
    cart_lt := h.cart_lt
    orders_nodup := nodup_append_fresh h.orders_nodup h.orders_lt rfl
    orders_lt := lt_append_fresh h.orders_lt rfl
    cart_pair := h.cart_pair }

theorem dbInv_updateOrderStatus (st : DbState) (id : Nat) (s : OrderStatus)
    (h : DbInv st) : DbInv (db_updateOrderStatus st id s).2 := by
  have hkeys : (st.orders.map (fun o =>
      if o.id == id then { o with status := s } else o)).map Order.id =
      st.orders.map Order.id := by
    apply map_keys_pointwise
    intro x _
    by_cases hx : x.id = id
    · simp [hx]
    · simp [hx]
  exact
    { users_nodup := h.users_nodup
      users_lt := h.users_lt
      menu_nodup := h.menu_nodup
      menu_lt := h.menu_lt
      cart_nodup := h.cart_nodup
      cart_lt := h.cart_lt
      orders_nodup := by
        show ((st.orders.map (fun o =>
          if o.id == id then { o with status := s } else o)).map
            Order.id).Nodup
        rw [hkeys]; exact h.orders_nodup
      orders_lt := lt_of_keys_eq hkeys h.orders_lt
      cart_pair := h.cart_pair }

theorem dbInv_apply (op : DbOp) (st : DbState) (h : DbInv st) :
    DbInv (dbApply op st) := by
  cases op with
  | createUser iu => exact dbInv_createUser st iu h
  | createMenuItem im => exact dbInv_createMenuItem st im h
  | updateMenuItem id im => exact dbInv_updateMenuItem st id im h
  | deleteMenuItem id => exact dbInv_deleteMenuItem st id h
  | addToCart ic => exact dbInv_addToCart st ic h
  | removeFromCart id userId => exact dbInv_removeFromCart st id userId h
  | updateCartItemQuantity id userId q =>
    exact dbInv_updateCartItemQuantity st id userId q h
  | clearCart userId => exact dbInv_clearCart st userId h
  | createOrder io now => exact dbInv_createOrder st io now h
  | updateOrderStatus id s => exact dbInv_updateOrderStatus st id s h

theorem dbInv_init : DbInv dbEmpty :=
  { users_nodup := by decide
    users_lt := by decide
    menu_nodup := by decide
    menu_lt := by decide
    cart_nodup := by decide
    cart_lt := by decide
    orders_nodup := by decide
    orders_lt := by decide
    cart_pair := by decide }

theorem dbReachable_inv {st : DbState} (h : DbReachable st) : DbInv st := by
  induction h with
  | init => exact dbInv_init
  | step st op _ ih => exact dbInv_apply op st ih

/-! ## Frame lemmas: which state components each operation leaves alone -/

theorem mem_updateMenuItem_frame (st : MemState) (id : Nat)
    (im : InsertMenuItem) :
    (mem_updateMenuItem st id im).2.users = st.users ∧
    (mem_updateMenuItem st id im).2.cartItems = st.cartItems ∧
    (mem_updateMenuItem st id im).2.orders = st.orders := by
  cases hf : st.menuItems.find? (fun m => m.id == id) <;>
    simp [mem_updateMenuItem, hf]

theorem mem_deleteMenuItem_frame (st : MemState) (id : Nat) :
    (mem_deleteMenuItem st id).2.users = st.users ∧
    (mem_deleteMenuItem st id).2.cartItems = st.cartItems ∧
    (mem_deleteMenuItem st id).2.orders = st.orders :=
  ⟨rfl, rfl, rfl⟩

theorem mem_updateCartItemQuantity_frame (st : MemState) (id userId : Nat)
    (q : Int) :
    (mem_updateCartItemQuantity st id userId q).2.users = st.users ∧
    (mem_updateCartItemQuantity st id userId q).2.menuItems = st.menuItems ∧
    (mem_updateCartItemQuantity st id userId q).2.orders = st.orders := by
  cases hf : st.cartItems.find? (fun c => c.id == id) with
  | none => simp [mem_updateCartItemQuantity, hf]
  | some c =>
    cases hcu : c.userId == userId <;>
      simp [mem_updateCartItemQuantity, hf, hcu]

theorem mem_addToCart_frame (st : MemState) (ic : InsertCartItem) :
    (mem_addToCart st ic).2.users = st.users ∧
    (mem_addToCart st ic).2.menuItems = st.menuItems ∧
    (mem_addToCart st ic).2.orders = st.orders := by
  cases hf : st.cartItems.find?
      (fun c => c.userId == ic.userId && c.menuItemId == ic.menuItemId) with
  | none => simp [mem_addToCart, hf]
  | some existing =>
    have hstate : (mem_addToCart st ic).2 =
        (mem_updateCartItemQuantity st existing.id ic.userId
          (existing.quantity + ic.quantity)).2 := by
      simp only [mem_addToCart, hf]
    rw [hstate]
    exact mem_updateCartItemQuantity_frame st existing.id ic.userId
      (existing.quantity + ic.quantity)

theorem mem_removeFromCart_frame (st : MemState) (id userId : Nat) :
    (mem_removeFromCart st id userId).2.users = st.users ∧
    (mem_removeFromCart st id userId).2.menuItems = st.menuItems ∧
    (mem_removeFromCart st id userId).2.orders = st.orders := by
  cases hf : st.cartItems.find? (fun c => c.id == id) with
  | none => simp [mem_removeFromCart, hf]
  | some c =>
    cases hcu : c.userId == userId <;> simp [mem_removeFromCart, hf, hcu]

theorem mem_clearCart_frame (st : MemState) (userId : Nat) :
    (mem_clearCart st userId).2.users = st.users ∧
    (mem_clearCart st userId).2.menuItems = st.menuItems ∧
    (mem_clearCart st userId).2.orders = st.orders :=
  ⟨rfl, rfl, rfl⟩

theorem mem_updateOrderStatus_frame (st : MemState) (id : Nat)
    (s : OrderStatus) :
    (mem_updateOrderStatus st id s).2.users = st.users ∧
    (mem_updateOrderStatus st id s).2.menuItems = st.menuItems ∧
    (mem_updateOrderStatus st id s).2.cartItems = st.cartItems := by
  cases hf : st.orders.find? (fun o => o.id == id) <;>
    simp [mem_updateOrderStatus, hf]

/-! ## Cart uniqueness consequences -/

theorem pair_filter_length_le_one {l : List CartItem}
    (hp : l.Pairwise distinctPair) (u m : Nat) :
    (l.filter (fun c => c.userId == u && c.menuItemId == m)).length ≤ 1 := by
  cases hc : l.filter (fun c => c.userId == u && c.menuItemId == m) with
  | nil => simp
  | cons x t =>
    cases t with
    | nil => simp
    | cons y t2 =>
      exfalso
      have hp2 := pairwise_filter_pair
        (fun c => c.userId == u && c.menuItemId == m) hp
      rw [hc] at hp2
      have hxy : distinctPair x y := (List.pairwise_cons.mp hp2).1 y (by simp)
      have hxm : x ∈ l.filter (fun c => c.userId == u && c.menuItemId == m) := by
        rw [hc]; simp
      have hym : y ∈ l.filter (fun c => c.userId == u && c.menuItemId == m) := by
        rw [hc]; simp
      have hxp := (List.mem_filter.mp hxm).2
      have hyp := (List.mem_filter.mp hym).2
      simp only [Bool.and_eq_true, beq_iff_eq] at hxp hyp
      rcases hxy with h1 | h1
      · exact h1 (by rw [hxp.1, hyp.1])
      · exact h1 (by rw [hxp.2, hyp.2])

theorem mem_addToCart_merge_length (st : MemState) (hinv : MemInv st)
    (ic : InsertCartItem)
    (hany : (st.cartItems.any (fun c =>
      c.userId == ic.userId && c.menuItemId == ic.menuItemId)) = true) :
    (mem_addToCart st ic).2.cartItems.length = st.cartItems.length := by
  obtain ⟨e, he⟩ : ∃ e, st.cartItems.find? (fun c =>
      c.userId == ic.userId && c.menuItemId == ic.menuItemId) = some e :=
    Option.isSome_iff_exists.mp
      (List.find?_isSome.mpr (List.any_eq_true.mp hany))
  have he_mem : e ∈ st.cartItems := List.mem_of_find?_eq_some he
  have he_pred := List.find?_some he
  simp only [Bool.and_eq_true, beq_iff_eq] at he_pred
  have hstate : (mem_addToCart st ic).2 =
      (mem_updateCartItemQuantity st e.id ic.userId
        (e.quantity + ic.quantity)).2 := by
    simp only [mem_addToCart, he]
  rw [hstate]
  obtain ⟨c, hc⟩ : ∃ c, st.cartItems.find? (fun x => x.id == e.id) = some c :=
    Option.isSome_iff_exists.mp
      (List.find?_isSome.mpr ⟨e, he_mem, by simp⟩)
  have hc_mem : c ∈ st.cartItems := List.mem_of_find?_eq_some hc
  have hc_id : c.id = e.id := by
    have := List.find?_some hc
    simpa using this
  have hce : c = e := key_injective_of_nodup hinv.cart_nodup hc_mem he_mem hc_id
  have hcu : (c.userId == ic.userId) = true := by simp [hce, he_pred.1]
  have hmem : st.cartItems.any (fun x => x.id == e.id) = true :=
    List.any_eq_true.mpr ⟨e, he_mem, by simp⟩
  have hstate2 : (mem_updateCartItemQuantity st e.id ic.userId
      (e.quantity + ic.quantity)).2 =
      { st with cartItems := (mapSet st.cartItems (fun x => x.id) e.id
          { c with quantity := e.quantity + ic.quantity }) } := by
    simp only [mem_updateCartItemQuantity, hc, hcu]
    simp
  rw [hstate2]
  exact length_mapSet_replace hmem

theorem db_addToCart_merge_length (st : DbState) (ic : InsertCartItem)
    (hany : (st.cartItems.any (fun c =>
      c.userId == ic.userId && c.menuItemId == ic.menuItemId)) = true) :
    (db_addToCart st ic).2.cartItems.length = st.cartItems.length := by
  obtain ⟨e, he⟩ : ∃ e, st.cartItems.find? (fun c =>
      c.userId == ic.userId && c.menuItemId == ic.menuItemId) = some e :=
    Option.isSome_iff_exists.mp
      (List.find?_isSome.mpr (List.any_eq_true.mp hany))
  have hstate : (db_addToCart st ic).2 =
      (db_updateCartItemQuantity st e.id ic.userId
        (e.quantity + ic.quantity)).2 := by
    simp only [db_addToCart, he]
  rw [hstate]
  exact List.length_map _ _

theorem memApply_orders_mem (op : MemOp) (st : MemState) (hinv : MemInv st)
    (hop : op.isUpdateOrderStatus = false) (o : Order) (ho : o ∈ st.orders) :
    o ∈ (memApply op st).orders := by
  cases op with
  | createUser iu => exact ho
  | createMenuItem im => exact ho
  | updateMenuItem id im =>
    rw [show (memApply (MemOp.updateMenuItem id im) st).orders = st.orders from
      (mem_updateMenuItem_frame st id im).2.2]
    exact ho
  | deleteMenuItem id => exact ho
  | addToCart ic =>
    rw [show (memApply (MemOp.addToCart ic) st).orders = st.orders from
      (mem_addToCart_frame st ic).2.2]
    exact ho
  | removeFromCart id userId =>
    rw [show (memApply (MemOp.removeFromCart id userId) st).orders = st.orders
      from (mem_removeFromCart_frame st id userId).2.2]
    exact ho
  | updateCartItemQuantity id userId q =>
    rw [show (memApply (MemOp.updateCartItemQuantity id userId q) st).orders =
      st.orders from (mem_updateCartItemQuantity_frame st id userId q).2.2]
    exact ho
  | clearCart userId => exact ho
  | createOrder io now =>
    have hfresh : ∀ x ∈ st.orders, x.id ≠ st.orderIdCounter :=
      fresh_key_ne hinv.orders_lt
    have horders : (memApply (MemOp.createOrder io now) st).orders =
        st.orders ++ [⟨st.orderIdCounter, io.userId, io.items,
          OrderStatus.pending, io.total, now, io.address, io.paymentId⟩] := by
      simp only [memApply, mem_createOrder]
      exact mapSet_fresh hfresh
    rw [horders]
    exact List.mem_append_left _ ho
  | updateOrderStatus id s => simp [MemOp.isUpdateOrderStatus] at hop

/-! ## Invariant preservation for the document-store backend -/

theorem m_nodup_append_fresh {α β : Type} [DecidableEq β] {key : α → β}
    {l : List α} {v : α} (hnd : (l.map key).Nodup)
    (hfresh : ∀ x ∈ l, key x ≠ key v) : ((l ++ [v]).map key).Nodup := by
  rw [List.map_append]
  refine List.Nodup.append hnd (by simp) ?_
  intro a ha hb
  obtain ⟨y, hy, hya⟩ := List.mem_map.mp ha
  have hb2 : a = key v := by simpa using hb
  exact hfresh y hy (by rw [hya, hb2])

theorem m_pairwise_map_pair_preserving {l : List MCartItem}
    {f : MCartItem → MCartItem}
    (h : ∀ x ∈ l, (f x).userId = x.userId ∧ (f x).menuItemId = x.menuItemId)
    (hp : l.Pairwise mongoDistinctPair) :
    (l.map f).Pairwise mongoDistinctPair := by
  rw [List.pairwise_map]
  refine hp.imp_of_mem ?_
  intro a b ha hb hab
  obtain ⟨hu1, hm1⟩ := h a ha
  obtain ⟨hu2, hm2⟩ := h b hb
  rcases hab with h1 | h1
  · exact Or.inl (by rw [hu1, hu2]; exact h1)
  · exact Or.inr (by rw [hm1, hm2]; exact h1)

theorem m_pairwise_append_fresh_pair {l : List MCartItem} {v : MCartItem}
    (hp : l.Pairwise mongoDistinctPair)
    (hnone : ∀ x ∈ l, ¬(x.userId = v.userId ∧ x.menuItemId = v.menuItemId)) :
    (l ++ [v]).Pairwise mongoDistinctPair := by
  rw [List.pairwise_append]
  refine ⟨hp, by simp, ?_⟩
  intro a ha b hb
  have hb2 : b = v := by simpa using hb
  rw [hb2]
  by_cases hu : a.userId = v.userId
  · exact Or.inr (fun hm => hnone a ha ⟨hu, hm⟩)
  · exact Or.inl hu

theorem mongoInv_congr {st st' : MongoState} (h : MongoInv st)
    (hc : st'.cartItems = st.cartItems) (hs : st'.oidSupply = st.oidSupply) :
    MongoInv st' :=
  { cart_oid_nodup := by rw [hc]; exact h.cart_oid_nodup
    cart_pair := by rw [hc]; exact h.cart_pair
    supply_nodup := by rw [hs]; exact h.supply_nodup
    cart_supply_disjoint := by
      rw [hc, hs]; exact h.cart_supply_disjoint }

theorem mongoInv_tail {st : MongoState} (h : MongoInv st) {oid : String}
    {rest : List String} (hsup : st.oidSupply = oid :: rest)
    {st' : MongoState} (hc : st'.cartItems = st.cartItems)
    (hs : st'.oidSupply = rest) : MongoInv st' :=
  { cart_oid_nodup := by rw [hc]; exact h.cart_oid_nodup
    cart_pair := by rw [hc]; exact h.cart_pair
    supply_nodup := by
      rw [hs]
      exact (List.nodup_cons.mp (hsup ▸ h.supply_nodup)).2
    cart_supply_disjoint := by
      rw [hc, hs]
      intro c hcmem hr
      exact h.cart_supply_disjoint c hcmem
        (by rw [hsup]; exact List.mem_cons_of_mem _ hr) }

theorem mongoInv_cart_sublist {st : MongoState} (h : MongoInv st)
    {l : List MCartItem} (hs : l.Sublist st.cartItems) :
    MongoInv { st with cartItems := l } :=
  { cart_oid_nodup :=
      List.Nodup.sublist (List.Sublist.map MCartItem.oid hs) h.cart_oid_nodup
    cart_pair := List.Pairwise.sublist hs h.cart_pair
    supply_nodup := h.supply_nodup
    cart_supply_disjoint := fun c hc => h.cart_supply_disjoint c (hs.subset hc) }

theorem mongoInv_cart_replace {st : MongoState} (h : MongoInv st)
    {target : MCartItem} (htmem : target ∈ st.cartItems) {upd : MCartItem}
    (hoid : upd.oid = target.oid) (huser : upd.userId = target.userId)
    (hitem : upd.menuItemId = target.menuItemId) :
    MongoInv { st with cartItems := st.cartItems.map (fun c =>
      if c.oid == target.oid then upd else c) } := by
  have hkey : ∀ x ∈ st.cartItems,
      MCartItem.oid (if x.oid == target.oid then upd else x) =
        MCartItem.oid x := by
    intro x _
    by_cases hx : x.oid = target.oid
    · simp [hx, hoid]
    · simp [hx]
  have hpair : ∀ x ∈ st.cartItems,
      (if x.oid == target.oid then upd else x).userId = x.userId ∧
      (if x.oid == target.oid then upd else x).menuItemId = x.menuItemId := by
    intro x hx
    by_cases hxo : x.oid = target.oid
    · have hxt : x = target :=
        List.inj_on_of_nodup_map h.cart_oid_nodup hx htmem hxo
      simp [hxo, hxt, huser, hitem]
    · simp [hxo]
  have hkeys : (st.cartItems.map (fun c =>
      if c.oid == target.oid then upd else c)).map MCartItem.oid =
      st.cartItems.map MCartItem.oid := by
    rw [List.map_map]
    exact List.map_congr_left hkey
  exact
    { cart_oid_nodup := by
        show ((st.cartItems.map (fun c =>
          if c.oid == target.oid then upd else c)).map MCartItem.oid).Nodup
        rw [hkeys]; exact h.cart_oid_nodup
      cart_pair := m_pairwise_map_pair_preserving hpair h.cart_pair
      supply_nodup := h.supply_nodup
      cart_supply_disjoint := by
        intro c hc hin
        obtain ⟨x, hx, hxc⟩ := List.mem_map.mp hc
        have hco : c.oid = x.oid := by rw [← hxc]; exact hkey x hx
        exact h.cart_supply_disjoint x hx (hco ▸ hin) }

theorem mongoInv_createUser (st : MongoState) (iu : InsertUser)
    (h : MongoInv st) : MongoInv (mongo_createUser st iu).2 := by
  cases hsup : st.oidSupply with
  | nil =>
    have hstate : (mongo_createUser st iu).2 = st := by
      simp only [mongo_createUser, hsup]
    rw [hstate]; exact h
  | cons oid rest =>
    have hstate : (mongo_createUser st iu).2 = { st with
        users := st.users ++ [⟨oid, iu.username, iu.password, iu.name,
          iu.email, iu.isAdmin⟩], oidSupply := rest } := by
      simp only [mongo_createUser, hsup]
    rw [hstate]
    exact mongoInv_tail h hsup rfl rfl

theorem mongoInv_createMenuItem (st : MongoState) (im : InsertMenuItem)
    (h : MongoInv st) : MongoInv (mongo_createMenuItem st im).2 := by
  cases hsup : st.oidSupply with
  | nil =>
    have hstate : (mongo_createMenuItem st im).2 = st := by
      simp only [mongo_createMenuItem, hsup]
    rw [hstate]; exact h
  | cons oid rest =>
    have hstate : (mongo_createMenuItem st im).2 = { st with
        menuItems := st.menuItems ++ [⟨oid, im.name, im.description, im.price,
          im.imageUrl, im.category, 0, im.isPopular⟩], oidSupply := rest } := by
      simp only [mongo_createMenuItem, hsup]
    rw [hstate]
    exact mongoInv_tail h hsup rfl rfl

theorem mongoInv_createOrder (st : MongoState) (io : InsertOrder) (now : Nat)
    (h : MongoInv st) : MongoInv (mongo_createOrder st io now).2 := by
  cases hsup : st.oidSupply with
  | nil =>
    have hstate : (mongo_createOrder st io now).2 = st := by
      simp only [mongo_createOrder, hsup]
    rw [hstate]; exact h
  | cons oid rest =>
    have hstate : (mongo_createOrder st io now).2 = { st with
        orders := st.orders ++ [⟨oid, numericIdToHex24 io.userId,
          io.items.map (fun it => ⟨numericIdToHex24 it.menuItemId,
            it.quantity⟩),
          OrderStatus.pending, io.total, now, io.address, io.paymentId⟩],
        oidSupply := rest } := by
      simp only [mongo_createOrder, hsup]
    rw [hstate]
    exact mongoInv_tail h hsup rfl rfl

theorem mongoInv_updateMenuItem (st : MongoState) (id : Nat)
    (im : InsertMenuItem) (h : MongoInv st) :
    MongoInv (mongo_updateMenuItem st id im).2 := by
  cases hf : mongoFindById st.menuItems MMenuItem.oid (numericIdToHex24 id) with
  | none =>
    have hstate : (mongo_updateMenuItem st id im).2 = st := by
      simp only [mongo_updateMenuItem, hf]
    rw [hstate]; exact h
  | some e =>
    have hstate : (mongo_updateMenuItem st id im).2 = { st with
        menuItems := st.menuItems.map (fun m =>
          if m.oid == numericIdToHex24 id then applyInsertMMenuItem e im
          else m) } := by
      simp only [mongo_updateMenuItem, hf]
    rw [hstate]
    exact mongoInv_congr h rfl rfl

theorem mongoInv_deleteMenuItem (st : MongoState) (id : Nat)
    (h : MongoInv st) : MongoInv (mongo_deleteMenuItem st id).2 :=
  mongoInv_congr h rfl rfl

theorem mongoInv_updateOrderStatus (st : MongoState) (id : Nat)
    (s : OrderStatus) (h : MongoInv st) :
    MongoInv (mongo_updateOrderStatus st id s).2 := by
  cases hf : mongoFindById st.orders MOrder.oid (numericIdToHex24 id) with
  | none =>
    have hstate : (mongo_updateOrderStatus st id s).2 = st := by
      simp only [mongo_updateOrderStatus, hf]
    rw [hstate]; exact h
  | some o =>
    have hstate : (mongo_updateOrderStatus st id s).2 = { st with
        orders := st.orders.map (fun x =>
          if x.oid == numericIdToHex24 id then { o with status := s }
          else x) } := by
      simp only [mongo_updateOrderStatus, hf]
    rw [hstate]
    exact mongoInv_congr h rfl rfl

theorem mongoInv_clearCart (st : MongoState) (userId : Nat) (h : MongoInv st) :
    MongoInv (mongo_clearCart st userId).2 := by
  cases hu : st.users.find? (fun u => objectIdToNumericId u.oid == userId) with
  | none =>
    have hstate : (mongo_clearCart st userId).2 = st := by
      simp only [mongo_clearCart, hu]
    rw [hstate]; exact h
  | some user =>
    have hstate : (mongo_clearCart st userId).2 = { st with
        cartItems := st.cartItems.filter (fun c =>
          !(c.userId == user.oid)) } := by
      simp only [mongo_clearCart, hu]
    rw [hstate]
    exact mongoInv_cart_sublist h (List.filter_sublist st.cartItems)

theorem mongoInv_removeFromCart (st : MongoState) (id userId : Nat)
    (h : MongoInv st) : MongoInv (mongo_removeFromCart st id userId).2 := by
  cases hu : st.users.find? (fun u => objectIdToNumericId u.oid == userId) with
  | none =>
    have hstate : (mongo_removeFromCart st id userId).2 = st := by
      simp only [mongo_removeFromCart, hu]
    rw [hstate]; exact h
  | some user =>
    cases hi : (st.cartItems.filter (fun c => c.userId == user.oid)).find?
        (fun c => objectIdToNumericId c.oid == id) with
    | none =>
      have hstate : (mongo_removeFromCart st id userId).2 = st := by
        simp only [mongo_removeFromCart, hu, hi]
      rw [hstate]; exact h
    | some item =>
      have hstate : (mongo_removeFromCart st id userId).2 = { st with
          cartItems := st.cartItems.filter (fun c =>
            !(c.oid == item.oid)) } := by
        simp only [mongo_removeFromCart, hu, hi]
      rw [hstate]
      exact mongoInv_cart_sublist h (List.filter_sublist st.cartItems)

theorem mongoInv_updateCartItemQuantity (st : MongoState) (id userId : Nat)
    (q : Int) (h : MongoInv st) :
    MongoInv (mongo_updateCartItemQuantity st id userId q).2 := by
  cases hu : st.users.find? (fun u => objectIdToNumericId u.oid == userId) with
  | none =>
    have hstate : (mongo_updateCartItemQuantity st id userId q).2 = st := by
      simp only [mongo_updateCartItemQuantity, hu]
    rw [hstate]; exact h
  | some user =>
    cases hi : (st.cartItems.filter (fun c => c.userId == user.oid)).find?
        (fun c => objectIdToNumericId c.oid == id) with
    | none =>
      have hstate : (mongo_updateCartItemQuantity st id userId q).2 = st := by
        simp only [mongo_updateCartItemQuantity, hu, hi]
      rw [hstate]; exact h
    | some target =>
      have ht_mem : target ∈ st.cartItems :=
        (List.mem_filter.mp (List.mem_of_find?_eq_some hi)).1
      have hstate : (mongo_updateCartItemQuantity st id userId q).2 = { st with
          cartItems := st.cartItems.map (fun c =>
            if c.oid == target.oid then { target with quantity := q }
            else c) } := by
        simp only [mongo_updateCartItemQuantity, hu, hi]
      rw [hstate]
      exact mongoInv_cart_replace h ht_mem rfl rfl rfl

theorem mongoInv_addToCart (st : MongoState) (ic : InsertCartItem)
    (h : MongoInv st) : MongoInv (mongo_addToCart st ic).2 := by
  cases h1 : st.users.find?
      (fun u => objectIdToNumericId u.oid == ic.userId) with
  | none =>
    have hstate : (mongo_addToCart st ic).2 = st := by
      simp only [mongo_addToCart, h1]
    rw [hstate]; exact h
  | some user =>
    cases h2 : st.menuItems.find?
        (fun m => objectIdToNumericId m.oid == ic.menuItemId) with
    | none =>
      have hstate : (mongo_addToCart st ic).2 = st := by
        simp only [mongo_addToCart, h1, h2]
      rw [hstate]; exact h
    | some item =>
      cases h3 : st.cartItems.find?
          (fun c => c.userId == user.oid && c.menuItemId == item.oid) with
      | some existing =>
        have he_mem : existing ∈ st.cartItems := List.mem_of_find?_eq_some h3
        have hstate : (mongo_addToCart st ic).2 = { st with
            cartItems := st.cartItems.map (fun c =>
              if c.oid == existing.oid then
                { existing with quantity := existing.quantity +
                    (if ic.quantity == 0 then 1 else ic.quantity) }
              else c) } := by
          simp only [mongo_addToCart, h1, h2, h3]
        rw [hstate]
        exact mongoInv_cart_replace h he_mem rfl rfl rfl
      | none =>
        cases hsup : st.oidSupply with
        | nil =>
          have hstate : (mongo_addToCart st ic).2 = st := by
            simp only [mongo_addToCart, h1, h2, h3, hsup]
          rw [hstate]; exact h
        | cons oid rest =>
          have hnone : ∀ x ∈ st.cartItems,
              ¬(x.userId = user.oid ∧ x.menuItemId = item.oid) := by
            intro x hx hand
            have := List.find?_eq_none.mp h3 x hx
            simp [hand.1, hand.2] at this
          have hfresh : ∀ x ∈ st.cartItems, x.oid ≠ oid := by
            intro x hx hcontra
            exact h.cart_supply_disjoint x hx
              (by rw [hsup, hcontra]; exact List.mem_cons_self _ _)
          have hstate : (mongo_addToCart st ic).2 = { st with
              cartItems := st.cartItems ++
                [⟨oid, user.oid, item.oid,
                  if ic.quantity == 0 then 1 else ic.quantity⟩],
              oidSupply := rest } := by
            simp only [mongo_addToCart, h1, h2, h3, hsup]
          rw [hstate]
          exact
            { cart_oid_nodup := m_nodup_append_fresh h.cart_oid_nodup hfresh
              cart_pair := m_pairwise_append_fresh_pair h.cart_pair hnone
              supply_nodup :=
                (List.nodup_cons.mp (hsup ▸ h.supply_nodup)).2
              cart_supply_disjoint := by
                intro c hc hin
                rcases List.mem_append.mp hc with hc2 | hc2
                · exact h.cart_supply_disjoint c hc2
                    (by rw [hsup]; exact List.mem_cons_of_mem _ hin)
                · have hco : c.oid = oid := by
                    rw [List.mem_singleton.mp hc2]
                  rw [hco] at hin
                  exact (List.nodup_cons.mp (hsup ▸ h.supply_nodup)).1 hin }

theorem mongoInv_apply (op : MongoOp) (st : MongoState) (h : MongoInv st) :
    MongoInv (mongoApply op st) := by
  cases op with
  | createUser iu => exact mongoInv_createUser st iu h
  | createMenuItem im => exact mongoInv_createMenuItem st im h
  | updateMenuItem id im => exact mongoInv_updateMenuItem st id im h
  | deleteMenuItem id => exact mongoInv_deleteMenuItem st id h
  | addToCart ic => exact mongoInv_addToCart st ic h
  | removeFromCart id userId => exact mongoInv_removeFromCart st id userId h
  | updateCartItemQuantity id userId q =>
    exact mongoInv_updateCartItemQuantity st id userId q h
  | clearCart userId => exact mongoInv_clearCart st userId h
  | createOrder io now => exact mongoInv_createOrder st io now h
  | updateOrderStatus id s => exact mongoInv_updateOrderStatus st id s h

theorem mongoInv_init (supply : List String) (h : supply.Nodup) :
    MongoInv ⟨[], [], [], [], supply⟩ :=
  { cart_oid_nodup := by simp
    cart_pair := List.Pairwise.nil
    supply_nodup := h
    cart_supply_disjoint := by intro c hc; simp at hc }

theorem mongoReachable_inv {st : MongoState} (h : MongoReachable st) :
    MongoInv st := by
  induction h with
  | init supply hnd => exact mongoInv_init supply hnd
  | step st op _ ih => exact mongoInv_apply op st ih

theorem mongo_pair_filter_length_le_one {l : List MCartItem}
    (hp : l.Pairwise mongoDistinctPair) (u m : String) :
    (l.filter (fun c => c.userId == u && c.menuItemId == m)).length ≤ 1 := by
  cases hc : l.filter (fun c => c.userId == u && c.menuItemId == m) with
  | nil => simp
  | cons x t =>
    cases t with
    | nil => simp
    | cons y t2 =>
      exfalso
      have hp2 : (l.filter (fun c =>
          c.userId == u && c.menuItemId == m)).Pairwise mongoDistinctPair :=
        List.Pairwise.sublist (List.filter_sublist l) hp
      rw [hc] at hp2
      have hxy : mongoDistinctPair x y :=
        (List.pairwise_cons.mp hp2).1 y (by simp)
      have hxm : x ∈ l.filter (fun c =>
          c.userId == u && c.menuItemId == m) := by
        rw [hc]; simp
      have hym : y ∈ l.filter (fun c =>
          c.userId == u && c.menuItemId == m) := by
        rw [hc]; simp
      have hxp := (List.mem_filter.mp hxm).2
      have hyp := (List.mem_filter.mp hym).2
      simp only [Bool.and_eq_true, beq_iff_eq] at hxp hyp
      rcases hxy with h1 | h1
      · exact h1 (by rw [hxp.1, hyp.1])
      · exact h1 (by rw [hxp.2, hyp.2])

/-! ## Claim C2: at most one cart row per (user, menu item) pair -/

/-- C8: every order returned by `createOrder` has status `pending` and the
creation-time timestamp, whatever the insert value (in the in-memory and
the document-store backends); and a stored order is untouched by every
operation other than `updateOrderStatus`. -/
theorem claim8_createOrder_pending_and_only_updateOrderStatus
    (st : MemState) (h : MemReachable st) (io : InsertOrder) (now : Nat)
    (op : MemOp) (hop : op.isUpdateOrderStatus = false)
    (o : Order) (ho : o ∈ st.orders) (ms : MongoState) :
    (mem_createOrder st io now).1.status = OrderStatus.pending ∧
    (mem_createOrder st io now).1.createdAt = now ∧
    ((mongo_createOrder ms io now).1.all (fun r =>
      r.status == OrderStatus.pending && r.createdAt == now)) = true ∧
    o ∈ (memApply op st).orders := by
  refine ⟨rfl, rfl, ?_, memApply_orders_mem op st (memReachable_inv h) hop o ho⟩
  cases hsup : ms.oidSupply with
  | nil => simp [mongo_createOrder, hsup]
  | cons oid rest => simp [mongo_createOrder, hsup, convertOrderDocToType]

/-- C8 (witness): at the state holding one order (created at time 5), a
`clearCart` operation leaves the order untouched, and a `createOrder` at
time 7 in both backends yields a pending order stamped 7. -/
theorem claim8_witness :
    (mem_createOrder (memApply
        (MemOp.createOrder ⟨1, [], 0, none, none⟩ 5) initMemState)
      ⟨2, [], 0, none, none⟩ 7).1.status = OrderStatus.pending ∧
    (mem_createOrder (memApply
        (MemOp.createOrder ⟨1, [], 0, none, none⟩ 5) initMemState)
      ⟨2, [], 0, none, none⟩ 7).1.createdAt = 7 ∧
    ((mongo_createOrder ⟨[], [], [], [], ["5f1a2b3c4d5e6f7a8b9c0d1e"]⟩
        ⟨2, [], 0, none, none⟩ 7).1.all (fun r =>
      r.status == OrderStatus.pending && r.createdAt == 7)) = true ∧
    (⟨1, 1, [], OrderStatus.pending, 0, 5, none, none⟩ : Order) ∈
      (memApply (MemOp.clearCart 1) (memApply
        (MemOp.createOrder ⟨1, [], 0, none, none⟩ 5) initMemState)).orders :=
  claim8_createOrder_pending_and_only_updateOrderStatus
    (memApply (MemOp.createOrder ⟨1, [], 0, none, none⟩ 5) initMemState)
    (MemReachable.step initMemState
      (MemOp.createOrder ⟨1, [], 0, none, none⟩ 5) MemReachable.init)
    ⟨2, [], 0, none, none⟩ 7 (MemOp.clearCart 1) (by decide)
    ⟨1, 1, [], OrderStatus.pending, 0, 5, none, none⟩ (by decide)
    ⟨[], [], [], [], ["5f1a2b3c4d5e6f7a8b9c0d1e"]⟩


/-! ## Relational getOrdersByUserId: quantities survive menu updates -/

theorem filterMap_quantity_congr (items : List OrderItem)
    (g1 g2 : Nat → Option MenuItem)
    (h : ∀ mid, (g1 mid).isSome = (g2 mid).isSome) :
    ((items.filterMap (fun it => (g1 it.menuItemId).map (fun m =>
        ({ menuItem := some m, quantity := it.quantity } :
          OrderItemDetail)))).map (fun d => d.quantity)) =
    ((items.filterMap (fun it => (g2 it.menuItemId).map (fun m =>
        ({ menuItem := some m, quantity := it.quantity } :
          OrderItemDetail)))).map (fun d => d.quantity)) := by
  induction items with
  | nil => rfl
  | cons it rest ih =>
    rw [List.filterMap_cons, List.filterMap_cons]
    have hs := h it.menuItemId
    cases h1 : g1 it.menuItemId with
    | none =>
      cases h2 : g2 it.menuItemId with
      | none => simpa using ih
      | some m2 =>
        rw [h1, h2] at hs
        simp at hs
    | some m1 =>
      cases h2 : g2 it.menuItemId with
      | none =>
        rw [h1, h2] at hs
        simp at hs
      | some m2 => simpa using ih

theorem dbReportedQuantities_updateMenuItem (st : DbState) (id : Nat)
    (im : InsertMenuItem) (userId : Nat) :
    dbReportedQuantities (db_updateMenuItem st id im).2 userId =
      dbReportedQuantities st userId := by
  have hfind : ∀ mid,
      (db_getMenuItemById (db_updateMenuItem st id im).2 mid).isSome =
        (db_getMenuItemById st mid).isSome := by
    intro mid
    show (((st.menuItems.map (fun m =>
        if m.id == id then applyInsertMenuItem m im else m)).find?
          (fun m => m.id == mid))).isSome =
      ((st.menuItems.find? (fun m => m.id == mid))).isSome
    rw [List.find?_map, Option.isSome_map']
    have hpt : ∀ x ∈ st.menuItems,
        (((fun m => m.id == mid) ∘ (fun m =>
          if m.id == id then applyInsertMenuItem m im else m)) x) =
          (x.id == mid) := by
      intro x _
      by_cases hx : x.id = id
      · simp [Function.comp, hx, applyInsertMenuItem]
      · simp [Function.comp, hx]
    rw [find?_congr_mem hpt]
  simp only [dbReportedQuantities, db_getOrdersByUserId, List.map_map]
  have horders : (db_updateMenuItem st id im).2.orders = st.orders := rfl
  rw [horders]
  apply List.map_congr_left
  intro o _
  simp only [Function.comp]
  exact filterMap_quantity_congr o.items _ _ hfind

/-! ## Claim C3: what getOrdersByUserId snapshots and what it re-reads -/

theorem memReportedQuantities_eq_of_orders_eq (st stB : MemState)
    (h : stB.orders = st.orders) (userId : Nat) :
    memReportedQuantities stB userId = memReportedQuantities st userId := by
  simp only [memReportedQuantities, mem_getOrdersByUserId, h, List.map_map]
  apply List.map_congr_left
  intro o _
  simp [Function.comp, List.map_map]

/-- C3 (amended): the per-item quantities reported by `getOrdersByUserId`
(and the stored orders themselves, with their item lists and totals) are
unchanged by any subsequent `updateMenuItem` or `deleteMenuItem`; the
per-item menu data, prices included, is re-read from the live menu at query
time and is not part of the snapshot. -/
theorem claim3_quantities_snapshot (st : MemState) (stD : DbState) (id : Nat)
    (im : InsertMenuItem) (userId : Nat) :
    memReportedQuantities (mem_updateMenuItem st id im).2 userId =
      memReportedQuantities st userId ∧
    memReportedQuantities (mem_deleteMenuItem st id).2 userId =
      memReportedQuantities st userId ∧
    (mem_updateMenuItem st id im).2.orders = st.orders ∧
    (mem_deleteMenuItem st id).2.orders = st.orders ∧
    dbReportedQuantities (db_updateMenuItem stD id im).2 userId =
      dbReportedQuantities stD userId ∧
    (db_updateMenuItem stD id im).2.orders = stD.orders ∧
    (db_deleteMenuItem stD id).2.orders = stD.orders :=
  ⟨memReportedQuantities_eq_of_orders_eq st _
      (mem_updateMenuItem_frame st id im).2.2 userId,
   memReportedQuantities_eq_of_orders_eq st _
      (mem_deleteMenuItem_frame st id).2.2 userId,
   (mem_updateMenuItem_frame st id im).2.2,
   (mem_deleteMenuItem_frame st id).2.2,
   dbReportedQuantities_updateMenuItem stD id im userId, rfl, rfl⟩

/-- C3 (counterexample): order-item prices are not immutable snapshots.  In
a store holding menu item 1 at price 10, create an order for two of item 1;
`getOrdersByUserId` reports price 10.  After `updateMenuItem` raises the
price to 25, the same query reports price 25 for the same order. -/
theorem claim3_price_changes_after_update :
    memReportedPrices (mem_createOrder
        ⟨[], [⟨1, "Burger", "desc", 10, none, "Food", 0, false⟩], [], [],
          1, 2, 1, 1⟩
        ⟨7, [⟨1, 2⟩], 20, none, none⟩ 0).2 7 = [[some 10]] ∧
    memReportedPrices (mem_updateMenuItem (mem_createOrder
        ⟨[], [⟨1, "Burger", "desc", 10, none, "Food", 0, false⟩], [], [],
          1, 2, 1, 1⟩
        ⟨7, [⟨1, 2⟩], 20, none, none⟩ 0).2 1
        ⟨"Burger", "desc", 25, none, "Food", false⟩).2 7 = [[some 25]] ∧
    memReportedPrices (mem_updateMenuItem (mem_createOrder
        ⟨[], [⟨1, "Burger", "desc", 10, none, "Food", 0, false⟩], [], [],
          1, 2, 1, 1⟩
        ⟨7, [⟨1, 2⟩], 20, none, none⟩ 0).2 1
        ⟨"Burger", "desc", 25, none, "Food", false⟩).2 7 ≠
      memReportedPrices (mem_createOrder
        ⟨[], [⟨1, "Burger", "desc", 10, none, "Food", 0, false⟩], [], [],
          1, 2, 1, 1⟩
        ⟨7, [⟨1, 2⟩], 20, none, none⟩ 0).2 7 := by
  refine ⟨by decide, by decide, by decide⟩

/-! ## Claim C7: updateMenuItem round trip and frame -/

theorem filter_ne_update_map {l : List MenuItem} {id : Nat}
    {im : InsertMenuItem} :
    ((l.map (fun m => if m.id == id then applyInsertMenuItem m im else m)).filter
        (fun x => !(x.id == id))) =
      l.filter (fun x => !(x.id == id)) := by
  induction l with
  | nil => simp
  | cons a t ih =>
    by_cases ha : a.id = id
    · simpa [List.filter_cons, ha, applyInsertMenuItem] using ih
    · simpa [List.filter_cons, ha] using ih

/-- C7: `updateMenuItem(id, m)` returns `undefined` and changes nothing
when no menu item has the given id; otherwise it returns the stored item
with the insert fields replaced (id and rating kept), and every menu item
with a different id — and all users, cart items and orders — are unchanged.
Both the in-memory and the relational backends satisfy this. -/
theorem claim7_updateMenuItem_roundtrip_frame (st : MemState) (stD : DbState)
    (id : Nat) (im : InsertMenuItem) :
    (mem_getMenuItemById st id = none →
      mem_updateMenuItem st id im = (none, st)) ∧
    (∀ e, mem_getMenuItemById st id = some e →
      (mem_updateMenuItem st id im).1 = some (applyInsertMenuItem e im)) ∧
    ((mem_updateMenuItem st id im).2.menuItems.filter
        (fun x => !(x.id == id)) =
      st.menuItems.filter (fun x => !(x.id == id))) ∧
    (mem_updateMenuItem st id im).2.users = st.users ∧
    (mem_updateMenuItem st id im).2.cartItems = st.cartItems ∧
    (mem_updateMenuItem st id im).2.orders = st.orders ∧
    (db_getMenuItemById stD id = none →
      db_updateMenuItem stD id im = (none, stD)) ∧
    (∀ e, db_getMenuItemById stD id = some e →
      (db_updateMenuItem stD id im).1 = some (applyInsertMenuItem e im)) ∧
    ((db_updateMenuItem stD id im).2.menuItems.filter
        (fun x => !(x.id == id)) =
      stD.menuItems.filter (fun x => !(x.id == id))) ∧
    (db_updateMenuItem stD id im).2.users = stD.users ∧
    (db_updateMenuItem stD id im).2.cartItems = stD.cartItems ∧
    (db_updateMenuItem stD id im).2.orders = stD.orders := by
  refine ⟨?_, ?_, ?_, (mem_updateMenuItem_frame st id im).1,
    (mem_updateMenuItem_frame st id im).2.1,
    (mem_updateMenuItem_frame st id im).2.2, ?_, ?_, ?_, rfl, rfl, rfl⟩
  · intro h
    have hf : st.menuItems.find? (fun m => m.id == id) = none := h
    simp [mem_updateMenuItem, hf]
  · intro e he
    have hf : st.menuItems.find? (fun m => m.id == id) = some e := he
    simp [mem_updateMenuItem, hf]
  · cases hf : st.menuItems.find? (fun m => m.id == id) with
    | none =>
      have hstate : (mem_updateMenuItem st id im).2 = st := by
        simp only [mem_updateMenuItem, hf]
      rw [hstate]
    | some e =>
      have he_id : e.id = id := by
        have := List.find?_some hf
        simpa using this
      have hstate : (mem_updateMenuItem st id im).2 =
          { st with menuItems := (mapSet st.menuItems (fun x => x.id) id
              (applyInsertMenuItem e im)) } := by
        simp only [mem_updateMenuItem, hf]
      rw [hstate]
      exact filter_ne_mapSet (by simp [applyInsertMenuItem, he_id])
  · intro h
    have hf : stD.menuItems.find? (fun m => m.id == id) = none := h
    have hmapid : stD.menuItems.map
        (fun m => if m.id == id then applyInsertMenuItem m im else m) =
        stD.menuItems := by
      have hfix : ∀ m ∈ stD.menuItems,
          (if m.id == id then applyInsertMenuItem m im else m) = m := by
        intro m hm
        have hne : ¬((m.id == id) = true) := List.find?_eq_none.mp hf m hm
        simp [hne]
      rw [List.map_congr_left hfix]
      exact List.map_id' stD.menuItems
    show ((stD.menuItems.find? (fun m => m.id == id)).map
        (fun e => applyInsertMenuItem e im),
      { stD with menuItems := (stD.menuItems.map
          (fun m => if m.id == id then applyInsertMenuItem m im else m)) }) =
      (none, stD)
    rw [hf, hmapid]
    rfl
  · intro e he
    have hf : stD.menuItems.find? (fun m => m.id == id) = some e := he
    simp [db_updateMenuItem, hf]
  · exact filter_ne_update_map

/-! ## Claim C4: backend interchangeability -/

/-- C4 (counterexample): the in-memory and relational backends are not
interchangeable — after the same `createUser` (username `"Alice"`) applied
to each backend's starting state, `getUserByUsername("alice")` finds the
row in MemStorage (case-insensitive match) and finds nothing in
DatabaseStorage (exact SQL equality). -/
theorem claim4_backends_disagree_on_username_case :
    (mem_getUserByUsername
        (memApply (MemOp.createUser ⟨"Alice", "pw", none, none, false⟩)
          initMemState) "alice").isSome = true ∧
    db_getUserByUsername
        (dbApply (DbOp.createUser ⟨"Alice", "pw", none, none, false⟩) dbEmpty)
        "alice" = none := by
  refine ⟨by decide, by decide⟩

/-- C4 (amended): the backends are not observably interchangeable: the
in-memory backend matches usernames and categories case-insensitively while
the relational backend matches exactly.  On states holding the same rows,
`getUserByUsername` and `getMenuItemsByCategory` agree between the two
backends whenever the stored usernames/categories and the argument are
fixed points of lower-casing. -/
theorem claim4_lookup_agreement_on_lowercase (stM : MemState) (stD : DbState)
    (husers : stM.users = stD.users) (hmenu : stM.menuItems = stD.menuItems)
    (username category : String)
    (hu : ∀ u ∈ stM.users, jsToLower u.username = u.username)
    (hq : jsToLower username = username)
    (hc : ∀ m ∈ stM.menuItems, jsToLower m.category = m.category)
    (hqc : jsToLower category = category) :
    mem_getUserByUsername stM username = db_getUserByUsername stD username ∧
    mem_getMenuItemsByCategory stM category =
      db_getMenuItemsByCategory stD category := by
  constructor
  · rw [mem_getUserByUsername, db_getUserByUsername, ← husers]
    apply find?_congr_mem
    intro u hmem
    rw [hu u hmem, hq]
  · rw [mem_getMenuItemsByCategory, db_getMenuItemsByCategory, ← hmenu]
    apply List.filter_congr
    intro m hmem
    rw [hc m hmem, hqc]

/-- C4 (witness): the restricted agreement at concrete states holding one
all-lower-case user and menu item each. -/
theorem claim4_witness :
    mem_getUserByUsername
        ⟨[⟨1, "alice", "pw", none, none, false⟩],
         [⟨1, "margherita", "d", 10, none, "pizza", 0, false⟩], [], [],
         2, 2, 1, 1⟩ "alice" =
      db_getUserByUsername
        ⟨[⟨1, "alice", "pw", none, none, false⟩],
         [⟨1, "margherita", "d", 10, none, "pizza", 0, false⟩], [], [],
         2, 2, 1, 1⟩ "alice" ∧
    mem_getMenuItemsByCategory
        ⟨[⟨1, "alice", "pw", none, none, false⟩],
         [⟨1, "margherita", "d", 10, none, "pizza", 0, false⟩], [], [],
         2, 2, 1, 1⟩ "pizza" =
      db_getMenuItemsByCategory
        ⟨[⟨1, "alice", "pw", none, none, false⟩],
         [⟨1, "margherita", "d", 10, none, "pizza", 0, false⟩], [], [],
         2, 2, 1, 1⟩ "pizza" :=
  claim4_lookup_agreement_on_lowercase
    ⟨[⟨1, "alice", "pw", none, none, false⟩],
     [⟨1, "margherita", "d", 10, none, "pizza", 0, false⟩], [], [],
     2, 2, 1, 1⟩
    ⟨[⟨1, "alice", "pw", none, none, false⟩],
     [⟨1, "margherita", "d", 10, none, "pizza", 0, false⟩], [], [],
     2, 2, 1, 1⟩
    rfl rfl "alice" "pizza" (by decide) (by decide) (by decide) (by decide)

/-! ## Claim C5: create/read round trips -/

/-- C5 (counterexample): the create/read round trip fails in the
document-store backend.  With MongoDB assigning the ObjectId
`"5f1a2b3c4d5e6f9a7b9c0d1e"`-style identifier `"5f1a2b3c4d5e6f7a8b9c0d1e"`,
`createMenuItem` returns a menu item with numeric id `0x9c0d1e = 10226974`,
but an immediately following `getMenuItemById` of that id looks up
`"0000000000000000009c0d1e"` and returns nothing. -/
theorem claim5_mongo_roundtrip_fails :
    ((mongo_createMenuItem ⟨[], [], [], [], ["5f1a2b3c4d5e6f7a8b9c0d1e"]⟩
        ⟨"Pizza", "d", 10, none, "Pizza", false⟩).1.map MenuItem.id) =
      some 10226974 ∧
    mongo_getMenuItemById
      (mongo_createMenuItem ⟨[], [], [], [], ["5f1a2b3c4d5e6f7a8b9c0d1e"]⟩
        ⟨"Pizza", "d", 10, none, "Pizza", false⟩).2
      10226974 = none := by
  refine ⟨by decide, by decide⟩

/-- C5 (amended): the create/read round trips do hold in the in-memory and
relational backends: createUser/getUser, createMenuItem/getMenuItemById and
createOrder/getOrderById each return the created record under the id the
create returned; in the document-store backend the round trip holds only
for documents whose ObjectId is the zero-padded hex encoding of the numeric
id. -/
theorem claim5_mem_db_roundtrips (st : MemState) (h : MemReachable st)
    (stD : DbState) (hD : DbReachable stD)
    (iu : InsertUser) (im : InsertMenuItem) (io : InsertOrder) (now : Nat) :
    mem_getUser (mem_createUser st iu).2 (mem_createUser st iu).1.id =
      some (mem_createUser st iu).1 ∧
    mem_getMenuItemById (mem_createMenuItem st im).2
        (mem_createMenuItem st im).1.id = some (mem_createMenuItem st im).1 ∧
    mem_getOrderById (mem_createOrder st io now).2
        (mem_createOrder st io now).1.id =
      some (mem_createOrder st io now).1 ∧
    db_getUser (db_createUser stD iu).2 (db_createUser stD iu).1.id =
      some (db_createUser stD iu).1 ∧
    db_getMenuItemById (db_createMenuItem stD im).2
        (db_createMenuItem stD im).1.id = some (db_createMenuItem stD im).1 ∧
    db_getOrderById (db_createOrder stD io now).2
        (db_createOrder stD io now).1.id =
      some (db_createOrder stD io now).1 := by
  have hinv := memReachable_inv h
  have hinvD := dbReachable_inv hD
  refine ⟨?_, ?_, ?_, ?_, ?_, ?_⟩
  · have hfresh : ∀ x ∈ st.users, x.id ≠ st.userIdCounter :=
      fresh_key_ne hinv.users_lt
    have husers : (mem_createUser st iu).2.users =
        st.users ++ [(mem_createUser st iu).1] := by
      simp only [mem_createUser]
      exact mapSet_fresh hfresh
    rw [mem_getUser, husers]
    exact find?_append_fresh hfresh rfl
  · have hfresh : ∀ x ∈ st.menuItems, x.id ≠ st.menuItemIdCounter :=
      fresh_key_ne hinv.menu_lt
    have hmenu : (mem_createMenuItem st im).2.menuItems =
        st.menuItems ++ [(mem_createMenuItem st im).1] := by
      simp only [mem_createMenuItem]
      exact mapSet_fresh hfresh
    rw [mem_getMenuItemById, hmenu]
    exact find?_append_fresh hfresh rfl
  · have hfresh : ∀ x ∈ st.orders, x.id ≠ st.orderIdCounter :=
      fresh_key_ne hinv.orders_lt
    have horders : (mem_createOrder st io now).2.orders =
        st.orders ++ [(mem_createOrder st io now).1] := by
      simp only [mem_createOrder]
      exact mapSet_fresh hfresh
    rw [mem_getOrderById, horders]
    exact find?_append_fresh hfresh rfl
  · have hfresh : ∀ x ∈ stD.users, x.id ≠ stD.userSeq :=
      fresh_key_ne hinvD.users_lt
    rw [db_getUser]
    exact find?_append_fresh hfresh rfl
  · have hfresh : ∀ x ∈ stD.menuItems, x.id ≠ stD.menuSeq :=
      fresh_key_ne hinvD.menu_lt
    rw [db_getMenuItemById]
    exact find?_append_fresh hfresh rfl
  · have hfresh : ∀ x ∈ stD.orders, x.id ≠ stD.orderSeq :=
      fresh_key_ne hinvD.orders_lt
    rw [db_getOrderById]
    exact find?_append_fresh hfresh rfl

/-- C5 (witness): the round trips at the seeded in-memory store and the
empty relational store with concrete insert values. -/
theorem claim5_witness :
    mem_getUser (mem_createUser initMemState
        ⟨"bob", "pw", none, none, false⟩).2
      (mem_createUser initMemState ⟨"bob", "pw", none, none, false⟩).1.id =
      some (mem_createUser initMemState ⟨"bob", "pw", none, none, false⟩).1 ∧
    mem_getMenuItemById (mem_createMenuItem initMemState
        ⟨"Tea", "d", 2, none, "Drinks", false⟩).2
      (mem_createMenuItem initMemState
        ⟨"Tea", "d", 2, none, "Drinks", false⟩).1.id =
      some (mem_createMenuItem initMemState
        ⟨"Tea", "d", 2, none, "Drinks", false⟩).1 ∧
    mem_getOrderById (mem_createOrder initMemState
        ⟨1, [], 0, none, none⟩ 3).2
      (mem_createOrder initMemState ⟨1, [], 0, none, none⟩ 3).1.id =
      some (mem_createOrder initMemState ⟨1, [], 0, none, none⟩ 3).1 ∧
    db_getUser (db_createUser dbEmpty ⟨"bob", "pw", none, none, false⟩).2
      (db_createUser dbEmpty ⟨"bob", "pw", none, none, false⟩).1.id =
      some (db_createUser dbEmpty ⟨"bob", "pw", none, none, false⟩).1 ∧
    db_getMenuItemById (db_createMenuItem dbEmpty
        ⟨"Tea", "d", 2, none, "Drinks", false⟩).2
      (db_createMenuItem dbEmpty
        ⟨"Tea", "d", 2, none, "Drinks", false⟩).1.id =
      some (db_createMenuItem dbEmpty ⟨"Tea", "d", 2, none, "Drinks", false⟩).1 ∧
    db_getOrderById (db_createOrder dbEmpty ⟨1, [], 0, none, none⟩ 3).2
      (db_createOrder dbEmpty ⟨1, [], 0, none, none⟩ 3).1.id =
      some (db_createOrder dbEmpty ⟨1, [], 0, none, none⟩ 3).1 :=
  claim5_mem_db_roundtrips initMemState MemReachable.init dbEmpty
    DbReachable.init ⟨"bob", "pw", none, none, false⟩
    ⟨"Tea", "d", 2, none, "Drinks", false⟩ ⟨1, [], 0, none, none⟩ 3

/-! ## Claim C6: generic failures versus fallback lookups -/

/-- C6 (counterexample): `MongoStorage.getUser` does not surface a missed
lookup as a failure — it reissues the lookup under another identifier
encoding.  For a store holding one user with ObjectId
`"5f0000000000000000000001"`, the padded-hex lookup of numeric id 1 finds
nothing, yet `getUser 1` still returns the user via the numeric-id scan of
the whole collection. -/
theorem claim6_getUser_falls_back :
    mongoFindById
      (⟨[⟨"5f0000000000000000000001", "bob", "pw", none, none, false⟩],
        [], [], [], []⟩ : MongoState).users MUser.oid (numericIdToHex24 1) =
      none ∧
    mongo_getUser
      ⟨[⟨"5f0000000000000000000001", "bob", "pw", none, none, false⟩],
        [], [], [], []⟩ 1 =
      some ⟨1, "bob", "pw", none, none, false⟩ := by
  refine ⟨by decide, by decide⟩

/-- C6 (amended): failures do surface as generic absent results — when
every lookup strategy misses, `MongoStorage.getUser` returns `undefined` —
but `getUser` (and `getCartItems`) first retry the lookup under alternative
identifier encodings rather than failing on the primary miss. -/
theorem claim6_getUser_none_when_all_strategies_miss (st : MongoState)
    (id : Nat)
    (h1 : ∀ u ∈ st.users, u.oid ≠ numericIdToHex24 id)
    (h2 : ∀ u ∈ st.users, objectIdToNumericId u.oid ≠ id) :
    mongo_getUser st id = none := by
  have hf1 : mongoFindById st.users MUser.oid (numericIdToHex24 id) = none := by
    rw [mongoFindById, List.find?_eq_none]
    intro u hu
    simpa using h1 u hu
  have hf2 : st.users.find? (fun u => objectIdToNumericId u.oid == id) =
      none := by
    rw [List.find?_eq_none]
    intro u hu
    simpa using h2 u hu
  simp [mongo_getUser, hf1, hf2]

/-- C6 (witness): on a store holding one unrelated user, `getUser 2` misses
under every strategy and returns the generic absent result. -/
theorem claim6_witness :
    mongo_getUser
      ⟨[⟨"5f0000000000000000000001", "bob", "pw", none, none, false⟩],
        [], [], [], []⟩ 2 = none :=
  claim6_getUser_none_when_all_strategies_miss
    ⟨[⟨"5f0000000000000000000001", "bob", "pw", none, none, false⟩],
      [], [], [], []⟩ 2 (by decide) (by decide)

/-! ## Claim C9: removeFromCart ownership check -/

/-- C9 (amended): in the in-memory backend `removeFromCart(id, userId)`
returns `true` exactly when a cart row with that id exists and belongs to
that user, it removes exactly that row, and users, menu items and orders
are untouched — so no user can remove another user's cart row.  In the
relational backend the delete also removes only the `(id, userId)`-matching
rows, but the returned boolean is the truthiness of the command result and
is `true` even when nothing matched. -/
theorem claim9_removeFromCart_owner_only (st : MemState) (h : MemReachable st)
    (id userId : Nat) (stD : DbState) :
    ((mem_removeFromCart st id userId).1 = true ↔
      ∃ c ∈ st.cartItems, c.id = id ∧ c.userId = userId) ∧
    (mem_removeFromCart st id userId).2.cartItems =
      st.cartItems.filter (fun c => !(c.id == id && c.userId == userId)) ∧
    (mem_removeFromCart st id userId).2.users = st.users ∧
    (mem_removeFromCart st id userId).2.menuItems = st.menuItems ∧
    (mem_removeFromCart st id userId).2.orders = st.orders ∧
    (db_removeFromCart stD id userId).1 = true ∧
    (db_removeFromCart stD id userId).2.cartItems =
      stD.cartItems.filter (fun c => !(c.id == id && c.userId == userId)) := by
  have hinv := memReachable_inv h
  refine ⟨?_, ?_, (mem_removeFromCart_frame st id userId).1,
    (mem_removeFromCart_frame st id userId).2.1,
    (mem_removeFromCart_frame st id userId).2.2, rfl, rfl⟩
  · cases hf : st.cartItems.find? (fun c => c.id == id) with
    | none =>
      have hres : (mem_removeFromCart st id userId).1 = false := by
        simp [mem_removeFromCart, hf]
      rw [hres]
      constructor
      · intro hfalse
        exact absurd hfalse Bool.false_ne_true
      · rintro ⟨c, hc, hcid, -⟩
        have hnone := List.find?_eq_none.mp hf c hc
        simp [hcid] at hnone
    | some c =>
      have hc_mem : c ∈ st.cartItems := List.mem_of_find?_eq_some hf
      have hc_id : c.id = id := by
        have := List.find?_some hf
        simpa using this
      cases hcu : c.userId == userId with
      | true =>
        have hres : (mem_removeFromCart st id userId).1 = true := by
          simp [mem_removeFromCart, hf, hcu]
        rw [hres]
        constructor
        · intro _
          exact ⟨c, hc_mem, hc_id, by simpa using hcu⟩
        · intro _
          rfl
      | false =>
        have hres : (mem_removeFromCart st id userId).1 = false := by
          simp [mem_removeFromCart, hf, hcu]
        rw [hres]
        constructor
        · intro hfalse
          exact absurd hfalse Bool.false_ne_true
        · rintro ⟨e, he, heid, heu⟩
          have hec : e = c := key_injective_of_nodup hinv.cart_nodup he hc_mem
            (by rw [heid, hc_id])
          rw [hec] at heu
          have hcu2 : (c.userId == userId) = true := by simp [heu]
          rw [hcu] at hcu2
          exact absurd hcu2 Bool.false_ne_true
  · cases hf : st.cartItems.find? (fun c => c.id == id) with
    | none =>
      have hstate : (mem_removeFromCart st id userId).2 = st := by
        simp [mem_removeFromCart, hf]
      rw [hstate]
      symm
      apply List.filter_eq_self.mpr
      intro c hc
      have hnone := List.find?_eq_none.mp hf c hc
      simp only [beq_iff_eq] at hnone
      simp [hnone]
    | some c =>
      have hc_mem : c ∈ st.cartItems := List.mem_of_find?_eq_some hf
      have hc_id : c.id = id := by
        have := List.find?_some hf
        simpa using this
      cases hcu : c.userId == userId with
      | false =>
        have hstate : (mem_removeFromCart st id userId).2 = st := by
          simp [mem_removeFromCart, hf, hcu]
        rw [hstate]
        symm
        apply List.filter_eq_self.mpr
        intro e he
        by_cases heid : e.id = id
        · have hec : e = c := key_injective_of_nodup hinv.cart_nodup he hc_mem
            (by rw [heid, hc_id])
          have : (e.userId == userId) = false := by rw [hec]; exact hcu
          simp [this]
        · simp [heid]
      | true =>
        have hstate : (mem_removeFromCart st id userId).2 =
            { st with cartItems := mapDelete st.cartItems (fun x => x.id) id } := by
          simp [mem_removeFromCart, hf, hcu]
        rw [hstate]
        show mapDelete st.cartItems (fun x => x.id) id =
          st.cartItems.filter (fun c => !(c.id == id && c.userId == userId))
        rw [mapDelete]
        apply List.filter_congr
        intro x hx
        suffices hs : (x.id == id && x.userId == userId) = (x.id == id) by
          rw [hs]
        cases hxid : x.id == id with
        | false => simp
        | true =>
          have hxc : x = c := key_injective_of_nodup hinv.cart_nodup hx hc_mem
            (by rw [show x.id = id by simpa using hxid, hc_id])
          have : (x.userId == userId) = true := by rw [hxc]; exact hcu
          simp [this]

/-- C9 (counterexample): in the relational backend, `removeFromCart(1, 1)`
on the empty database — no cart item exists at all — still returns `true`,
because `!!result` coerces the delete's always-truthy command result. -/
theorem claim9_db_returns_true_without_row :
    dbEmpty.cartItems = [] ∧ (db_removeFromCart dbEmpty 1 1).1 = true :=
  ⟨rfl, rfl⟩

/-- C9 (witness): at the reachable state holding the cart row (id 1, user
1, item 1), removal by its owner succeeds and removes exactly that row. -/
theorem claim9_witness :
    ((mem_removeFromCart
        (memApply (MemOp.addToCart ⟨1, 1, 2⟩) initMemState) 1 1).1 = true ↔
      ∃ c ∈ (memApply (MemOp.addToCart ⟨1, 1, 2⟩) initMemState).cartItems,
        c.id = 1 ∧ c.userId = 1) ∧
    (mem_removeFromCart
        (memApply (MemOp.addToCart ⟨1, 1, 2⟩) initMemState) 1 1).2.cartItems =
      (memApply (MemOp.addToCart ⟨1, 1, 2⟩) initMemState).cartItems.filter
        (fun c => !(c.id == 1 && c.userId == 1)) ∧
    (mem_removeFromCart
        (memApply (MemOp.addToCart ⟨1, 1, 2⟩) initMemState) 1 1).2.users =
      (memApply (MemOp.addToCart ⟨1, 1, 2⟩) initMemState).users ∧
    (mem_removeFromCart
        (memApply (MemOp.addToCart ⟨1, 1, 2⟩) initMemState) 1 1).2.menuItems =
      (memApply (MemOp.addToCart ⟨1, 1, 2⟩) initMemState).menuItems ∧
    (mem_removeFromCart
        (memApply (MemOp.addToCart ⟨1, 1, 2⟩) initMemState) 1 1).2.orders =
      (memApply (MemOp.addToCart ⟨1, 1, 2⟩) initMemState).orders ∧
    (db_removeFromCart dbEmpty 1 1).1 = true ∧
    (db_removeFromCart dbEmpty 1 1).2.cartItems =
      dbEmpty.cartItems.filter (fun c => !(c.id == 1 && c.userId == 1)) :=
  claim9_removeFromCart_owner_only
    (memApply (MemOp.addToCart ⟨1, 1, 2⟩) initMemState)
    (MemReachable.step initMemState (MemOp.addToCart ⟨1, 1, 2⟩)
      MemReachable.init) 1 1 dbEmpty

/-! ## Claim C10: clearCart removes exactly one user's rows -/

/-- C10: `clearCart(userId)` returns `true` and removes exactly the cart
rows of that user: afterwards `getCartItems(userId)` is empty, while every
other user's cart rows and all users, menu items and orders are unchanged —
in both the in-memory and the relational backends. -/
theorem claim10_clearCart_exact (st : MemState) (h : MemReachable st)
    (userId : Nat) (stD : DbState) :
    (mem_clearCart st userId).1 = true ∧
    (mem_clearCart st userId).2.cartItems =
      st.cartItems.filter (fun c => !(c.userId == userId)) ∧
    mem_getCartItems (mem_clearCart st userId).2 userId = [] ∧
    (mem_clearCart st userId).2.users = st.users ∧
    (mem_clearCart st userId).2.menuItems = st.menuItems ∧
    (mem_clearCart st userId).2.orders = st.orders ∧
    (db_clearCart stD userId).1 = true ∧
    (db_clearCart stD userId).2.cartItems =
      stD.cartItems.filter (fun c => !(c.userId == userId)) ∧
    db_getCartItems (db_clearCart stD userId).2 userId = [] := by
  have hinv := memReachable_inv h
  have hcart := mem_clearCart_cartItems st userId hinv.cart_nodup
  refine ⟨rfl, hcart, ?_, rfl, rfl, rfl, rfl, rfl, ?_⟩
  · show (mem_clearCart st userId).2.cartItems.filter
      (fun c => c.userId == userId) = []
    rw [hcart, List.filter_filter]
    apply List.filter_eq_nil_iff.mpr
    intro x _
    cases hx : x.userId == userId <;> simp [hx]
  · show (db_clearCart stD userId).2.cartItems.filter
      (fun c => c.userId == userId) = []
    rw [show (db_clearCart stD userId).2.cartItems =
      stD.cartItems.filter (fun c => !(c.userId == userId)) from rfl,
      List.filter_filter]
    apply List.filter_eq_nil_iff.mpr
    intro x _
    cases hx : x.userId == userId <;> simp [hx]

/-- C10 (witness): clearing user 1's cart at the reachable state holding
one row for user 1, and at a relational state holding a row for user 2. -/
theorem claim10_witness :
    (mem_clearCart (memApply (MemOp.addToCart ⟨1, 1, 2⟩) initMemState) 1).1 =
      true ∧
    (mem_clearCart
        (memApply (MemOp.addToCart ⟨1, 1, 2⟩) initMemState) 1).2.cartItems =
      (memApply (MemOp.addToCart ⟨1, 1, 2⟩) initMemState).cartItems.filter
        (fun c => !(c.userId == 1)) ∧
    mem_getCartItems
      (mem_clearCart (memApply (MemOp.addToCart ⟨1, 1, 2⟩) initMemState) 1).2
      1 = [] ∧
    (mem_clearCart
        (memApply (MemOp.addToCart ⟨1, 1, 2⟩) initMemState) 1).2.users =
      (memApply (MemOp.addToCart ⟨1, 1, 2⟩) initMemState).users ∧
    (mem_clearCart
        (memApply (MemOp.addToCart ⟨1, 1, 2⟩) initMemState) 1).2.menuItems =
      (memApply (MemOp.addToCart ⟨1, 1, 2⟩) initMemState).menuItems ∧
    (mem_clearCart
        (memApply (MemOp.addToCart ⟨1, 1, 2⟩) initMemState) 1).2.orders =
      (memApply (MemOp.addToCart ⟨1, 1, 2⟩) initMemState).orders ∧
    (db_clearCart (dbApply (DbOp.addToCart ⟨2, 3, 1⟩) dbEmpty) 1).1 = true ∧
    (db_clearCart
        (dbApply (DbOp.addToCart ⟨2, 3, 1⟩) dbEmpty) 1).2.cartItems =
      (dbApply (DbOp.addToCart ⟨2, 3, 1⟩) dbEmpty).cartItems.filter
        (fun c => !(c.userId == 1)) ∧
    db_getCartItems
      (db_clearCart (dbApply (DbOp.addToCart ⟨2, 3, 1⟩) dbEmpty) 1).2 1 = [] :=
  claim10_clearCart_exact
    (memApply (MemOp.addToCart ⟨1, 1, 2⟩) initMemState)
    (MemReachable.step initMemState (MemOp.addToCart ⟨1, 1, 2⟩)
      MemReachable.init) 1
    (dbApply (DbOp.addToCart ⟨2, 3, 1⟩) dbEmpty)
